import Mathlib

/-!
Verification of the arc-discord interaction relay core.

The Go sources are shallowly embedded: pure functions are translated to Lean
functions; calls into the operating system, the redis broker and the Discord
REST client are passed in as explicit function parameters; `error` returns
become `Except String` / `Option` values.  The wire format produced and
consumed through `encoding/json` is modelled by the `Jval` type below together
with a compact serializer (`jser`, mirroring `json.Marshal` on the value
domain the envelope uses: null, booleans, integers, strings, arrays, objects)
and a fuel-indexed parser (`jparse`, mirroring `json.Unmarshal`'s scanner on
that same domain).  Machine integers are modelled as `Int`/`Nat`; none of the
embedded code relies on overflow.
-/

set_option maxHeartbeats 1000000
set_option maxRecDepth 16384
set_option linter.unusedVariables false

namespace ArcDiscord

/-- A JSON value as handled by the envelope protocol.  Numbers are restricted
to integers: every numeric field the relay reads or writes
(`timeout_seconds`) is an `int` in the Go sources. -/
inductive Jval where
  | jnull
  | jbool (b : Bool)
  | jnum (n : Int)
  | jstr (s : String)
  | jarr (items : List Jval)
  | jobj (fields : List (String × Jval))
deriving Repr

/-- Decimal digit character for `d < 10`. -/
def digChar (d : Nat) : Char := Char.ofNat (48 + d)

/-- Lower-case hexadecimal digit character for `d < 16`. -/
def hexChar (d : Nat) : Char := if d < 10 then Char.ofNat (48 + d) else Char.ofNat (87 + d)

/-- Digit emission worker, structurally recursive on a fuel bound so that
every concrete instance evaluates (the fuel exceeds the digit count). -/
def natCharsAux : Nat → Nat → List Char
  | 0, _ => []
  | fuel + 1, n =>
    if n < 10 then [digChar n]
    else natCharsAux fuel (n / 10) ++ [digChar (n % 10)]

/-- Decimal digits of `n`, most significant first (what `strconv` emits for a
non-negative integer). -/
def natChars (n : Nat) : List Char := natCharsAux (n + 1) n

/-- Decimal text of an integer: optional minus sign, then digits. -/
def intChars (n : Int) : List Char :=
  if n < 0 then '-' :: natChars n.natAbs else natChars n.natAbs

/-- One character as the Go JSON encoder emits it inside a string literal:
`"` `\` and the common control characters get two-character escapes, the
HTML-sensitive `<` `>` `&` and the remaining control characters get `\u00XX`,
U+2028/U+2029 get their `\uXXXX` forms, everything else is copied through. -/
def escChar (c : Char) : List Char :=
  if c = '"' then ['\\', '"']
  else if c = '\\' then ['\\', '\\']
  else if c = '\n' then ['\\', 'n']
  else if c = '\r' then ['\\', 'r']
  else if c = '\t' then ['\\', 't']
  else if c = '<' then ['\\', 'u', '0', '0', '3', 'c']
  else if c = '>' then ['\\', 'u', '0', '0', '3', 'e']
  else if c = '&' then ['\\', 'u', '0', '0', '2', '6']
  else if c.toNat < 32 then ['\\', 'u', '0', '0', hexChar (c.toNat / 16), hexChar (c.toNat % 16)]
  else if c.toNat = 8232 then ['\\', 'u', '2', '0', '2', '8']
  else if c.toNat = 8233 then ['\\', 'u', '2', '0', '2', '9']
  else [c]

/-- JSON-escape a character sequence. -/
def escList : List Char → List Char
  | [] => []
  | c :: cs => escChar c ++ escList cs

/-- A JSON string literal: quote, escaped content, quote. -/
def strChars (s : String) : List Char := '"' :: (escList s.data ++ ['"'])

mutual

/-- Compact JSON text of a value, exactly as `json.Marshal` lays it out
(no whitespace, object fields in declaration order). -/
def jser : Jval → List Char
  | .jnull => ['n', 'u', 'l', 'l']
  | .jbool true => ['t', 'r', 'u', 'e']
  | .jbool false => ['f', 'a', 'l', 's', 'e']
  | .jnum n => intChars n
  | .jstr s => strChars s
  | .jarr items => '[' :: jserItems items
  | .jobj fields => '{' :: jserFields fields

/-- Array elements after `[`, including the closing `]`. -/
def jserItems : List Jval → List Char
  | [] => [']']
  | v :: vs => jser v ++ jserItemsRest vs

/-- Remaining array elements, each preceded by `,`, then `]`. -/
def jserItemsRest : List Jval → List Char
  | [] => [']']
  | v :: vs => ',' :: (jser v ++ jserItemsRest vs)

/-- Object members after `{`, including the closing `}`. -/
def jserFields : List (String × Jval) → List Char
  | [] => ['}']
  | (k, v) :: fs => strChars k ++ (':' :: (jser v ++ jserFieldsRest fs))

/-- Remaining object members, each preceded by `,`, then `}`. -/
def jserFieldsRest : List (String × Jval) → List Char
  | [] => ['}']
  | (k, v) :: fs => ',' :: (strChars k ++ (':' :: (jser v ++ jserFieldsRest fs)))

end

/-- `json.Marshal` on the modelled value domain. -/
def marshal (v : Jval) : String := ⟨jser v⟩

/-- The whitespace characters the JSON scanner skips between tokens. -/
def isWsChar (c : Char) : Bool := c == ' ' || c == '\t' || c == '\n' || c == '\r'

/-- ASCII decimal digit test. -/
def isDig (c : Char) : Bool := 48 ≤ c.toNat && c.toNat ≤ 57

/-- Drop leading JSON whitespace. -/
def wsSkip : List Char → List Char
  | [] => []
  | c :: cs => if isWsChar c then wsSkip cs else c :: cs

/-- Split off the maximal leading run of decimal digits. -/
def grabDigits : List Char → List Char × List Char
  | [] => ([], [])
  | c :: cs =>
    if isDig c then
      let p := grabDigits cs
      (c :: p.1, p.2)
    else ([], c :: cs)

/-- Numeric value of a digit run. -/
def digitsVal (ds : List Char) : Nat := ds.foldl (fun a c => a * 10 + (c.toNat - 48)) 0

/-- Value of one hexadecimal digit character. -/
def hexVal (c : Char) : Option Nat :=
  if 48 ≤ c.toNat && c.toNat ≤ 57 then some (c.toNat - 48)
  else if 97 ≤ c.toNat && c.toNat ≤ 102 then some (c.toNat - 87)
  else if 65 ≤ c.toNat && c.toNat ≤ 70 then some (c.toNat - 55)
  else none

/-- Value of a four-digit hexadecimal escape payload. -/
def hexQuad (a b c d : Char) : Option Nat := do
  let va ← hexVal a
  let vb ← hexVal b
  let vc ← hexVal c
  let vd ← hexVal d
  pure (((va * 16 + vb) * 16 + vc) * 16 + vd)

/-- The single-character escapes the JSON scanner accepts after `\`: the
self-representing trio, the usual control-letter escapes, nothing else. -/
def escMap (e : Char) : Option Char :=
  if e = '"' ∨ e = '\\' ∨ e = '/' then some e
  else if e = 'n' then some '\n'
  else if e = 't' then some '\t'
  else if e = 'r' then some '\r'
  else if e = 'b' then some (Char.ofNat 8)
  else if e = 'f' then some (Char.ofNat 12)
  else none

/-- Scan a string literal body after the opening quote; yields the decoded
content and the input after the closing quote. -/
def strBody : List Char → Option (List Char × List Char)
  | [] => none
  | c :: cs =>
    if c = '"' then some ([], cs)
    else if c = '\\' then
      match cs with
      | 'u' :: h1 :: h2 :: h3 :: h4 :: rest =>
        match hexQuad h1 h2 h3 h4 with
        | some n =>
          match strBody rest with
          | some (s, rest') => some (Char.ofNat n :: s, rest')
          | none => none
        | none => none
      | e :: rest =>
        match escMap e with
        | some ch =>
          match strBody rest with
          | some (s, rest') => some (ch :: s, rest')
          | none => none
        | none => none
      | [] => none
    else
      match strBody cs with
      | some (s, rest) => some (c :: s, rest)
      | none => none

mutual

/-- Fuel-indexed JSON value scanner (the model of `json.Unmarshal`'s reader on
the envelope's value domain).  The fuel only guarantees totality; `parseJson`
below supplies more than any input can consume. -/
def jparse (fuel : Nat) (input : List Char) : Option (Jval × List Char) :=
  match fuel with
  | 0 => none
  | fuel + 1 =>
    match wsSkip input with
    | [] => none
    | c :: rest =>
      if c = 'n' then
        match rest with
        | 'u' :: 'l' :: 'l' :: rest' => some (.jnull, rest')
        | _ => none
      else if c = 't' then
        match rest with
        | 'r' :: 'u' :: 'e' :: rest' => some (.jbool true, rest')
        | _ => none
      else if c = 'f' then
        match rest with
        | 'a' :: 'l' :: 's' :: 'e' :: rest' => some (.jbool false, rest')
        | _ => none
      else if c = '"' then
        match strBody rest with
        | some (cs, rest') => some (.jstr ⟨cs⟩, rest')
        | none => none
      else if c = '[' then
        match wsSkip rest with
        | [] => none
        | c2 :: rest' =>
          if c2 = ']' then some (.jarr [], rest')
          else
            match jparseItems fuel (c2 :: rest') with
            | some (vs, rest'') => some (.jarr vs, rest'')
            | none => none
      else if c = '{' then
        match wsSkip rest with
        | [] => none
        | c2 :: rest' =>
          if c2 = '}' then some (.jobj [], rest')
          else
            match jparseFields fuel (c2 :: rest') with
            | some (fs, rest'') => some (.jobj fs, rest'')
            | none => none
      else if c = '-' then
        match grabDigits rest with
        | ([], _) => none
        | (ds, rest') => some (.jnum (-(digitsVal ds : Int)), rest')
      else if isDig c then
        match grabDigits (c :: rest) with
        | ([], _) => none
        | (ds, rest') => some (.jnum (digitsVal ds), rest')
      else none

/-- One-or-more comma-separated array elements, consuming the closing `]`. -/
def jparseItems (fuel : Nat) (input : List Char) : Option (List Jval × List Char) :=
  match fuel with
  | 0 => none
  | fuel + 1 =>
    match jparse fuel input with
    | none => none
    | some (v, rest) =>
      match wsSkip rest with
      | [] => none
      | c :: rest' =>
        if c = ',' then
          match jparseItems fuel rest' with
          | some (vs, rest'') => some (v :: vs, rest'')
          | none => none
        else if c = ']' then some ([v], rest')
        else none

/-- One-or-more comma-separated object members, consuming the closing `}`. -/
def jparseFields (fuel : Nat) (input : List Char) :
    Option (List (String × Jval) × List Char) :=
  match fuel with
  | 0 => none
  | fuel + 1 =>
    match wsSkip input with
    | [] => none
    | c :: rest =>
      if c = '"' then
        match strBody rest with
        | none => none
        | some (key, rest1) =>
          match wsSkip rest1 with
          | [] => none
          | c2 :: rest2 =>
            if c2 = ':' then
              match jparse fuel rest2 with
              | none => none
              | some (v, rest3) =>
                match wsSkip rest3 with
                | [] => none
                | c3 :: rest4 =>
                  if c3 = ',' then
                    match jparseFields fuel rest4 with
                    | some (fs, rest5) => some ((⟨key⟩, v) :: fs, rest5)
                    | none => none
                  else if c3 = '}' then some ([(⟨key⟩, v)], rest4)
                  else none
            else none
      else none

end

/-- `json.Unmarshal`'s view of a complete document: one value, then only
trailing whitespace. -/
def parseJson (s : String) : Option Jval :=
  match jparse (s.data.length + 1) s.data with
  | some (v, rest) => if wsSkip rest = [] then some v else none
  | none => none

/-!
Go string helpers

Character-list models of the `strings` package functions the sources call
(`ToLower`, `TrimSpace`, `HasPrefix`, `Split` on newline), kept kernel-
reducible so every concrete instance evaluates.
-/

/-- `strings.ToLower` on the ASCII range the route keys and agent ids use. -/
def lowerChar (c : Char) : Char :=
  if 65 ≤ c.toNat ∧ c.toNat ≤ 90 then Char.ofNat (c.toNat + 32) else c

/-- `strings.ToLower`. -/
def toLowerStr (s : String) : String := ⟨s.data.map lowerChar⟩

/-- `strings.TrimSpace`: drop leading and trailing whitespace. -/
def trimSpace (s : String) : String := ⟨(wsSkip (wsSkip s.data).reverse).reverse⟩

/-- `strings.HasPrefix`. -/
def hasPrefixStr (s pre : String) : Bool := pre.data.isPrefixOf s.data

/-- `strings.Split` on newline (accumulator holds the current line reversed). -/
def splitLinesAux (cur : List Char) : List Char → List (List Char)
  | [] => [cur.reverse]
  | c :: cs => if c = '\n' then cur.reverse :: splitLinesAux [] cs else splitLinesAux (c :: cur) cs

/-- The lines of a file body. -/
def linesOf (s : String) : List String := (splitLinesAux [] s.data).map fun l => ⟨l⟩

mutual

/-- Recursion budget a value needs from `jparse`: one unit per scanner step. -/
def jsize : Jval → Nat
  | .jnull => 1
  | .jbool _ => 1
  | .jnum _ => 1
  | .jstr _ => 1
  | .jarr items => jsizeItems items + 1
  | .jobj fields => jsizeFields fields + 1

/-- Budget an array's element list needs from `jparseItems`. -/
def jsizeItems : List Jval → Nat
  | [] => 0
  | v :: vs => jsize v + jsizeItems vs + 1

/-- Budget an object's member list needs from `jparseFields`. -/
def jsizeFields : List (String × Jval) → Nat
  | [] => 0
  | (_, v) :: fs => jsize v + jsizeFields fs + 1

end

/-- `true` when the input cannot extend a digit run: empty, or headed by a
non-digit.  Every character that can follow a serialized number inside a
document (`,` `]` `}` end-of-input) satisfies it. -/
def numStop : List Char → Bool
  | [] => true
  | c :: _ => !(isDig c)

/-!
The envelope (internal/cmd/handlers.go, registry type declarations)

`redisEnvelope` is the unit crossing the broker.  `Interaction` is a
`json.RawMessage` in Go — always the output of a prior `json.Marshal`, hence a
well-formed JSON value; it is modelled as the value itself (`none` models the
nil slice of an absent field).  `ReceivedAt` is the RFC3339 text the encoder
emits for the `time.Time`; `TimeoutSeconds` is `int(timeout.Seconds())`.
-/

structure redisEnvelope where
  Agent : String
  Kind : String
  Key : String
  Interaction : Option Jval
  ReceivedAt : String
  TimeoutSeconds : Int
  Source : String
deriving Repr

/-- `json.Marshal` of a `redisEnvelope`: one object, fields in struct-tag
order (`agent, kind, key, interaction, received_at, timeout_seconds, source`),
the raw interaction spliced in verbatim (nil raw message encodes as null). -/
def envelopeToJson (e : redisEnvelope) : Jval :=
  .jobj [("agent", .jstr e.Agent), ("kind", .jstr e.Kind), ("key", .jstr e.Key),
    ("interaction", e.Interaction.getD .jnull),
    ("received_at", .jstr e.ReceivedAt),
    ("timeout_seconds", .jnum e.TimeoutSeconds),
    ("source", .jstr e.Source)]

/-- The broker payload bytes `Publish` writes: `json.Marshal(env)`. -/
def marshalEnvelope (e : redisEnvelope) : String := marshal (envelopeToJson e)

/-- Object member lookup used when decoding into a Go struct (first match;
the serializer never emits duplicate keys). -/
def jsonField (fields : List (String × Jval)) (key : String) : Option Jval :=
  match fields with
  | [] => none
  | (k, v) :: rest => if k = key then some v else jsonField rest key

/-- Decode one `string` struct field: an absent key or a JSON null leaves the
zero value, a string decodes, any other shape is an unmarshal error. -/
def stringField (fields : List (String × Jval)) (key : String) : Option String :=
  match jsonField fields key with
  | none => some ""
  | some .jnull => some ""
  | some (.jstr s) => some s
  | some _ => none

/-- Decode one `int` struct field (same zero-value/null conventions). -/
def intField (fields : List (String × Jval)) (key : String) : Option Int :=
  match jsonField fields key with
  | none => some 0
  | some .jnull => some 0
  | some (.jnum n) => some n
  | some _ => none

/-- Decode one `json.RawMessage` struct field: the raw bytes of whatever JSON
value sits at the key (`none` = key absent = nil slice). -/
def rawField (fields : List (String × Jval)) (key : String) : Option (Option Jval) :=
  match jsonField fields key with
  | none => some none
  | some v => some (some v)

/-- `json.Unmarshal` of an envelope document: the top-level value must be an
object (or null, which is a no-op on the zero struct); each tagged field
decodes by `stringField`/`intField`/`rawField`.  (`received_at` is kept as its
RFC3339 text.) -/
def envelopeOfJson : Jval → Option redisEnvelope
  | .jnull => some ⟨"", "", "", none, "", 0, ""⟩
  | .jobj fields => do
    let agent ← stringField fields "agent"
    let kind ← stringField fields "kind"
    let key ← stringField fields "key"
    let interaction ← rawField fields "interaction"
    let receivedAt ← stringField fields "received_at"
    let timeoutSeconds ← intField fields "timeout_seconds"
    let source ← stringField fields "source"
    pure ⟨agent, kind, key, interaction, receivedAt, timeoutSeconds, source⟩
  | _ => none

/-- The subscriber side's `json.Unmarshal(payload, &env)`. -/
def decodeEnvelope (payload : String) : Option redisEnvelope :=
  (parseJson payload).bind envelopeOfJson

/-!
Handler bindings (internal/cmd/handlers.go)
-/

def handlerKindCommand : String := "command"
def handlerKindComponent : String := "component"
def handlerKindModal : String := "modal"
def handlerKindAutocomplete : String := "autocomplete"

/-- One configured `autocompleteChoice` (`Value` is `interface{}` in Go,
nil modelled as `none`). -/
structure autocompleteChoice where
  Name : String
  Description : String
  Value : Option Jval

/-- One configured route (`handlerRoute`). -/
structure handlerRoute where
  Agent : String
  Channel : String
  Description : String
  Choices : List autocompleteChoice

/-- The four route tables (`handlerMappings`).  Go maps are modelled as
association lists; none of the registration properties depend on iteration
order. -/
structure handlerMappings where
  Commands : List (String × handlerRoute)
  Components : List (String × handlerRoute)
  Modals : List (String × handlerRoute)
  Autocomplete : List (String × handlerRoute)

/-- `interactionsConfig`.  `Timeout` models the `time.Duration` in seconds. -/
structure interactionsConfig where
  Enabled : Bool
  Timeout : Int
  Handlers : handlerMappings

/-- A validated `types.AutocompleteChoice`. -/
structure outChoice where
  Name : String
  Value : Jval

/-- A compiled `handlerBinding`. -/
structure handlerBinding where
  Kind : String
  Key : String
  Route : handlerRoute
  AutocompleteChoices : List outChoice

/-- `buildAutocompleteChoices`: entries with a blank (whitespace-only) name or
a nil value are skipped. -/
def buildAutocompleteChoices (raw : List autocompleteChoice) : List outChoice :=
  raw.filterMap fun entry =>
    match entry.Value with
    | none => none
    | some v => if trimSpace entry.Name = "" then none else some ⟨entry.Name, v⟩

/-- `collectHandlerBindings`: nothing when interactions are disabled;
command/component/modal routes with an empty agent are dropped (command keys
lower-cased); autocomplete routes with zero valid choices are dropped
(autocomplete keys lower-cased). -/
def collectHandlerBindings (cfg : interactionsConfig) : List handlerBinding :=
  if !cfg.Enabled then []
  else
    (cfg.Handlers.Commands.filterMap fun kv =>
      if kv.2.Agent = "" then none
      else some ⟨handlerKindCommand, toLowerStr kv.1, kv.2, []⟩)
    ++ (cfg.Handlers.Components.filterMap fun kv =>
      if kv.2.Agent = "" then none
      else some ⟨handlerKindComponent, kv.1, kv.2, []⟩)
    ++ (cfg.Handlers.Modals.filterMap fun kv =>
      if kv.2.Agent = "" then none
      else some ⟨handlerKindModal, kv.1, kv.2, []⟩)
    ++ (cfg.Handlers.Autocomplete.filterMap fun kv =>
      let choices := buildAutocompleteChoices kv.2.Choices
      if choices.isEmpty then none
      else some ⟨handlerKindAutocomplete, toLowerStr kv.1, kv.2, choices⟩)

/-- The per-kind registration loop body of `registerInteractionHandlers`:
returns the `(kind, key)` registrations made, or the unknown-kind error. -/
def registerBindingList : List handlerBinding → Except String (List (String × String))
  | [] => .ok []
  | b :: bs =>
    if b.Kind = handlerKindCommand ∨ b.Kind = handlerKindComponent
        ∨ b.Kind = handlerKindModal ∨ b.Kind = handlerKindAutocomplete then
      match registerBindingList bs with
      | .ok regs => .ok ((b.Kind, b.Key) :: regs)
      | .error e => .error e
    else .error ("unknown handler kind " ++ b.Kind)

/-- `registerInteractionHandlers` (the publisher and timeout are only captured
into the per-binding closures, which `dispatchHandler` models below; `srvReady`
models the `srv == nil` check). -/
def registerInteractionHandlers (srvReady : Bool) (timeout : Int)
    (bindings : List handlerBinding) : Except String (List (String × String)) :=
  if !srvReady then .error "interaction server is not initialized"
  else if bindings.isEmpty then
    .error "no interaction handlers configured (set interactions.handlers in discord.yaml)"
  else registerBindingList bindings

/-!
Envelope construction and publishing (internal/cmd/handlers.go)
-/

/-- `newRedisEnvelope`: nil interaction is an error; otherwise the envelope is
assembled with the binding's route agent, kind, key, the marshalled
interaction, the current UTC time (passed in as `receivedAt`), the configured
timeout in whole seconds, and the fixed source tag. -/
def newRedisEnvelope (binding : handlerBinding) (timeoutSeconds : Int)
    (interaction : Option Jval) (receivedAt : String) : Except String redisEnvelope :=
  match interaction with
  | none => .error "interaction payload is nil"
  | some i =>
    .ok ⟨binding.Route.Agent, binding.Kind, binding.Key, some i, receivedAt,
      timeoutSeconds, "vibe.discord.server"⟩

def defaultRedisPrefix : String := "arc:discord"

/-- `normalizeChannelPrefix`: blank (whitespace-only) falls back to the
default. -/
def normalizeChannelPrefix (channelPrefix : String) : String :=
  if trimSpace channelPrefix = "" then defaultRedisPrefix else channelPrefix

/-- The per-agent event channel: `pfx + ":agent:" + lowercase agent`
(`fmt.Sprintf` in `redisPublisher.Publish`). -/
def publishChannel (pfx agent : String) : String := pfx ++ ":agent:" ++ toLowerStr agent

/-- The channel `newRedisSubscriber` computes for an agent from the raw
configured channel prefix. -/
def subscriberChannel (channelPrefix agent : String) : String :=
  normalizeChannelPrefix channelPrefix ++ ":agent:" ++ toLowerStr agent

/-- What one `Publish` call did: its return value, and every
`(channel, payload)` write handed to the broker client. -/
structure publishOutcome where
  result : Except String Unit
  sent : List (String × String)
deriving Repr

/-- `redisPublisher.Publish`.  `pfx` is the publisher's stored prefix (set to
`normalizeChannelPrefix` of the config by `newRedisPublisher`); `broker` is
the redis client's `Publish`, returning the write error if any.  The 5s
publish timeout wraps the broker write and is part of the opaque `broker`
behaviour. -/
def redisPublisherPublish (pfx : String) (broker : String → String → Except String Unit)
    (env : Option redisEnvelope) : publishOutcome :=
  match env with
  | none => ⟨.error "missing envelope", []⟩
  | some e =>
    if trimSpace e.Agent = "" then ⟨.error "envelope missing agent", []⟩
    else
      let payload := marshalEnvelope e
      let channel := publishChannel pfx e.Agent
      match broker channel payload with
      | .error err => ⟨.error ("publish redis channel " ++ channel ++ ": " ++ err), [(channel, payload)]⟩
      | .ok _ => ⟨.ok (), [(channel, payload)]⟩

/-- An interaction response the dispatcher returns synchronously. -/
inductive interactionResponse where
  | deferred
  | autocompleteResult (choices : List outChoice)

/-- `dispatchHandler` as applied to one inbound interaction: autocomplete
bindings answer synchronously from the static list (error if it is somehow
empty) and never touch the publisher; every other kind requires an agent,
builds an envelope and publishes it, answering with the deferred
acknowledgment on success.  The second component lists the broker writes
made. -/
def dispatchHandler (binding : handlerBinding) (timeoutSeconds : Int) (pfx : String)
    (broker : String → String → Except String Unit)
    (interaction : Option Jval) (receivedAt : String) :
    Except String interactionResponse × List (String × String) :=
  if binding.Kind = handlerKindAutocomplete then
    if binding.AutocompleteChoices.isEmpty then
      (.error ("autocomplete handler " ++ binding.Key ++ " missing choices"), [])
    else (.ok (.autocompleteResult binding.AutocompleteChoices), [])
  else
    if binding.Route.Agent = "" then
      (.error ("interaction handler " ++ binding.Key ++ " missing agent routing"), [])
    else
      match newRedisEnvelope binding timeoutSeconds interaction receivedAt with
      | .error e => (.error e, [])
      | .ok env =>
        let out := redisPublisherPublish pfx broker (some env)
        match out.result with
        | .error e => (.error e, out.sent)
        | .ok _ => (.ok .deferred, out.sent)

/-!
The agent listener (agent listen command source)
-/

/-- The slice of `types.Interaction` the listener reads: the token. -/
structure interactionMsg where
  Token : String
deriving Repr, DecidableEq

/-- `json.Unmarshal(env.Interaction, &interaction)` restricted to the token
field: null is a no-op, an object reads its `token` string (absent/null →
zero value), anything else fails to unmarshal. -/
def interactionOfJson : Jval → Option interactionMsg
  | .jnull => some ⟨""⟩
  | .jobj fields =>
    match jsonField fields "token" with
    | none => some ⟨""⟩
    | some .jnull => some ⟨""⟩
    | some (.jstr s) => some ⟨s⟩
    | some _ => none
  | _ => none

inductive outboundKind where
  | editOriginal
  | followup
deriving Repr, DecidableEq

/-- One outbound Discord REST call the listener made, with the deadline (in
seconds) of the context it passed. -/
structure outboundCall where
  kind : outboundKind
  timeoutSeconds : Nat
  applicationID : String
  token : String
deriving Repr, DecidableEq

/-- The injected interaction client's behaviour for one event: what each of
the two calls would return. -/
structure responderStub where
  editResult : Except String Unit
  followupResult : Except String Unit

/-- What one `handlePayload` call did: its return value, the outbound calls
it made in order, and the lines it printed. -/
structure handleOutcome where
  result : Except String Unit
  calls : List outboundCall
  logs : List String

/-- The fixed per-event deadline (`context.WithTimeout(ctx, 10*time.Second)`). -/
def agentHandleTimeoutSeconds : Nat := 10

/-- `agentListener.handlePayload`: malformed payloads are logged and ignored;
envelopes for another agent (case-insensitive) are silently skipped; a
missing interaction or token is a hard error; otherwise the original response
is edited and then a follow-up is created, both under the 10s deadline, each
failure wrapped and aborting. -/
def handlePayload (agentID applicationID : String) (client : responderStub)
    (payload : String) : handleOutcome :=
  match decodeEnvelope payload with
  | none => ⟨.ok (), [], ["invalid payload"]⟩
  | some env =>
    if toLowerStr env.Agent ≠ toLowerStr agentID then ⟨.ok (), [], []⟩
    else
      match env.Interaction with
      | none => ⟨.error "decode interaction: unexpected end of JSON input", [], []⟩
      | some ij =>
        match interactionOfJson ij with
        | none => ⟨.error "decode interaction: cannot unmarshal interaction", [], []⟩
        | some msg =>
          if msg.Token = "" then ⟨.error "interaction missing token", [], []⟩
          else
            let edit : outboundCall :=
              ⟨.editOriginal, agentHandleTimeoutSeconds, applicationID, msg.Token⟩
            match client.editResult with
            | .error e => ⟨.error ("edit original response: " ++ e), [edit], []⟩
            | .ok _ =>
              let fu : outboundCall :=
                ⟨.followup, agentHandleTimeoutSeconds, applicationID, msg.Token⟩
              match client.followupResult with
              | .error e => ⟨.error ("create followup response: " ++ e), [edit, fu], []⟩
              | .ok _ => ⟨.ok (), [edit, fu], ["processed"]⟩

/-!
The daemon manager (internal/cmd/daemon.go)

The filesystem is reduced to the one file the manager touches: the PID file's
content (`none` = absent).  `os.FindProcess` never fails on Unix; delivering a
signal to a PID fails exactly when no such process exists, which the `alive`
predicate models for both signal-0 probing and SIGTERM delivery.
-/

structure daemonState where
  pidFile : Option String
deriving Repr, DecidableEq

/-- `fmt.Sscanf("%d")` on the PID file text: optional leading whitespace and
sign, then at least one digit (trailing text ignored). -/
def scanPid (s : String) : Option Int :=
  match wsSkip s.data with
  | '-' :: rest =>
    match grabDigits rest with
    | ([], _) => none
    | (ds, _) => some (-(digitsVal ds : Int))
  | cs =>
    match grabDigits cs with
    | ([], _) => none
    | (ds, _) => some (digitsVal ds)

/-- `readPID`: an absent file reads as pid 0 with no error; unparsable content
is an error. -/
def readPID (content : Option String) : Except String Int :=
  match content with
  | none => .ok 0
  | some s =>
    match scanPid s with
    | some pid => .ok pid
    | none => .error "pid file malformed"

/-- `realCheckProcess`: signal-0 probing (false for non-positive PIDs). -/
def realCheckProcess (alive : Int → Bool) (pid : Int) : Bool :=
  if pid ≤ 0 then false else alive pid

/-- `realKillProcess` on Unix: `FindProcess` always succeeds, then SIGTERM
delivery fails iff the process is gone. -/
def realKillProcess (alive : Int → Bool) (pid : Int) : Except String Unit :=
  if alive pid then .ok () else .error "os: process already finished"

/-- `daemonManager.Stop`: read the PID file (absent → the no-pid-file error),
send the termination signal, and remove the PID file only after a successful
signal. -/
def daemonStop (kill : Int → Except String Unit) (st : daemonState) :
    Except String Unit × daemonState :=
  match readPID st.pidFile with
  | .error e => (.error e, st)
  | .ok pid =>
    if pid = 0 then (.error "no pid file found", st)
    else
      match kill pid with
      | .error e => (.error e, st)
      | .ok _ => (.ok (), ⟨none⟩)

/-- `daemonManager.Status`. -/
def daemonStatus (check : Int → Bool) (st : daemonState) : Except String String :=
  match readPID st.pidFile with
  | .error e => .error e
  | .ok pid =>
    if pid = 0 then .ok "stopped"
    else if check pid then .ok ("running (pid " ++ toString pid ++ ")")
    else .ok ("stale pid file (" ++ toString pid ++ ")")

def daemonEnvFlagAssignment : String := "VIBE_DISCORD_DAEMON_CHILD=1"

/-- `envFromFile`: each non-blank, non-comment line of the env file, trimmed
(`none` content = no path configured or unreadable file → nil). -/
def envFromFile (content : Option String) : List String :=
  match content with
  | none => []
  | some s =>
    ((linesOf s).map trimSpace).filter fun line =>
      !(line == "") && !(hasPrefixStr line "#")

/-- What one `daemonManager.Start` call did: its return value, the resulting
PID-file state, and the environment append handed to each spawned child. -/
structure daemonStartOutcome where
  result : Except String Unit
  state : daemonState
  spawned : List (List String)

/-- `daemonManager.Start`: a readable PID naming a live process (signal-0
check) refuses with the already-running error and touches nothing; otherwise
the child is spawned with the env-file lines plus the daemon marker variable
appended, and its PID overwrites the PID file.  `spawn` is the injected
process starter's outcome (read errors are discarded by `Start`, leaving
pid 0). -/
def daemonStart (check : Int → Bool) (spawn : Except String Int)
    (envFileContent : Option String) (st : daemonState) : daemonStartOutcome :=
  let pid := match readPID st.pidFile with
    | .ok p => p
    | .error _ => 0
  if 0 < pid ∧ check pid = true then
    ⟨.error ("daemon already running (pid " ++ toString pid ++ ")"), st, []⟩
  else
    let env := envFromFile envFileContent ++ [daemonEnvFlagAssignment]
    match spawn with
    | .error e => ⟨.error e, st, [env]⟩
    | .ok newPid => ⟨.ok (), ⟨some (toString newPid)⟩, [env]⟩

/-!
The ngrok tunnel supervisor (tunnel source)

The discovery API's behaviour is a function from poll index to HTTP outcome;
the subprocess is reduced to the outcomes of its factory/start calls and a
kill counter.
-/

structure ngrokTunnelEntry where
  public_url : String
  proto : String
deriving Repr, DecidableEq

structure ngrokTunnelsPayload where
  tunnels : List ngrokTunnelEntry
deriving Repr, DecidableEq

/-- One poll of the local discovery API: transport failure, or a status code
with a decodable (`some`) or undecodable (`none`) body. -/
inductive ngrokAPIResult where
  | netFailure (e : String)
  | response (status : Nat) (body : Option ngrokTunnelsPayload)
deriving Repr

/-- `fetchNgrokURL`: transport and HTTP (≥ 400) and decode failures error;
otherwise the first tunnel with an `https://` public URL wins, falling back
to the first tunnel of any scheme, and an empty list is the not-yet error. -/
def fetchNgrokURL : ngrokAPIResult → Except String String
  | .netFailure e => .error e
  | .response status body =>
    if 400 ≤ status then .error ("ngrok api returned " ++ toString status)
    else
      match body with
      | none => .error "invalid ngrok api response body"
      | some payload =>
        match payload.tunnels.find? (fun t => hasPrefixStr t.public_url "https://") with
        | some t => .ok t.public_url
        | none =>
          match payload.tunnels with
          | t :: _ => .ok t.public_url
          | [] => .error "no tunnels available yet"

/-- Number of polls the 15s window admits at one immediately plus one per
500ms tick. -/
def ngrokPollBudget : Nat := 31

/-- The poll loop of `waitForNgrokURL`: succeed on the first poll returning a
non-empty URL, otherwise wait for the next tick until the deadline. -/
def ngrokWaitLoop (polls : Nat → ngrokAPIResult) : Nat → Nat → Except String String
  | 0, _ => .error "timed out waiting for ngrok public url"
  | n + 1, i =>
    match fetchNgrokURL (polls i) with
    | .ok url => if url = "" then ngrokWaitLoop polls n (i + 1) else .ok url
    | .error _ => ngrokWaitLoop polls n (i + 1)

/-- `waitForNgrokURL` with the fixed 15s timeout and 500ms interval. -/
def waitForNgrokURL (polls : Nat → ngrokAPIResult) : Except String String :=
  ngrokWaitLoop polls ngrokPollBudget 0

/-- A ready tunnel session (stop function omitted: the claims under proof
concern the start path). -/
structure TunnelSession where
  Provider : String
  URL : String
deriving Repr, DecidableEq

/-- What one `startNgrokTunnel` call did: its return value and how many times
the spawned process's `Kill` ran. -/
structure tunnelStartOutcome where
  result : Except String TunnelSession
  kills : Nat
deriving Repr

/-- `startNgrokTunnel`: listen address required; factory and process start
failures wrap without any kill; a URL-wait failure kills the subprocess once
and wraps; success yields the session with no kill. -/
def startNgrokTunnel (listenAddr : String) (factory : Except String Unit)
    (startResult : Except String Unit) (polls : Nat → ngrokAPIResult) :
    tunnelStartOutcome :=
  if listenAddr = "" then ⟨.error "listen address required for tunnel", 0⟩
  else
    match factory with
    | .error e => ⟨.error ("launch ngrok: " ++ e), 0⟩
    | .ok _ =>
      match startResult with
      | .error e => ⟨.error ("start ngrok: " ++ e), 0⟩
      | .ok _ =>
        match waitForNgrokURL polls with
        | .error e => ⟨.error ("ngrok tunnel not ready: " ++ e), 1⟩
        | .ok url => ⟨.ok ⟨"ngrok", url⟩, 0⟩

/-!
Interaction settings loading (config source)

`loadInteractionSettings` parses the extra YAML sections of the discord
config.  The parsed file is passed in as `Option interactionConfigFile`
(`none` = empty path, i.e. no config file found); the consulted environment
variables are a record of strings (`""` = unset).  The source applies its
overrides as a chain of independent per-field `if` statements; they are
assembled field-wise here, stage by stage (defaults, file, env, fallbacks),
which touches each field exactly as the chain does.
-/

structure serverConfig where
  ListenAddr : String
deriving Repr, DecidableEq

structure redisConfig where
  Addr : String
  DB : Int
  Password : String
  ChannelPrefix : String
deriving Repr, DecidableEq

structure tunnelConfig where
  Provider : String
  NgrokAuthToken : String
deriving Repr, DecidableEq

structure interactionSettings where
  PublicKey : String
  PublicURL : String
  Server : serverConfig
  Redis : redisConfig
  Tunnel : tunnelConfig
  Interactions : interactionsConfig

/-- The environment variables the settings loader consults. -/
structure discordEnvVars where
  publicKey : String
  publicURL : String
  redisAddr : String
  redisPassword : String
  redisChannelPrefix : String
  tunnelProvider : String
  ngrokAuthToken : String

def defaultListenAddr : String := "127.0.0.1:8080"
def defaultRedisAddr : String := "127.0.0.1:6379"
/-- 15 minutes, in the seconds-based duration model. -/
def defaultInteractionTimeout : Int := 900
def defaultHandlerEnabled : Bool := true

/-- `envOrDefault`: the trimmed value when non-empty, else the fallback. -/
def envOrDefault (val fallback : String) : String :=
  if trimSpace val = "" then fallback else trimSpace val

/-- `defaultInteractionSettings`. -/
def defaultInteractionSettings (env : discordEnvVars) : interactionSettings where
  PublicKey := trimSpace env.publicKey
  PublicURL := trimSpace env.publicURL
  Server := ⟨defaultListenAddr⟩
  Redis := ⟨envOrDefault env.redisAddr defaultRedisAddr, 0, env.redisPassword,
    envOrDefault env.redisChannelPrefix defaultRedisPrefix⟩
  Tunnel := ⟨trimSpace env.tunnelProvider, trimSpace env.ngrokAuthToken⟩
  Interactions := ⟨defaultHandlerEnabled, defaultInteractionTimeout, ⟨[], [], [], []⟩⟩

/-- The parsed extra YAML sections (`interactionConfigFile`); absent YAML
keys read as zero values, exactly as `yaml.Unmarshal` leaves them. -/
structure interactionConfigFile where
  PublicKey : String
  PublicURL : String
  Server : serverConfig
  Redis : redisConfig
  Tunnel : tunnelConfig
  Interactions : interactionsConfig

/-- Store `v` at `k`, replacing an existing entry in place or appending (the
model of a Go map write on the association-list representation). -/
def assocPut (m : List (String × handlerRoute)) (k : String) (v : handlerRoute) :
    List (String × handlerRoute) :=
  if m.any (fun kv => kv.1 = k) then m.map fun kv => if kv.1 = k then (k, v) else kv
  else m ++ [(k, v)]

/-- `mergeHandlerMappings`: file entries overwrite defaults per key, command
and autocomplete keys lower-cased on the way in. -/
def mergeHandlerMappings (target : interactionsConfig) (src : handlerMappings) :
    interactionsConfig :=
  { target with Handlers :=
    ⟨src.Commands.foldl (fun acc kv => assocPut acc (toLowerStr kv.1) kv.2) target.Handlers.Commands,
     src.Components.foldl (fun acc kv => assocPut acc kv.1 kv.2) target.Handlers.Components,
     src.Modals.foldl (fun acc kv => assocPut acc kv.1 kv.2) target.Handlers.Modals,
     src.Autocomplete.foldl (fun acc kv => assocPut acc (toLowerStr kv.1) kv.2)
       target.Handlers.Autocomplete⟩ }

/-- `loadInteractionSettings`. -/
def loadInteractionSettings (env : discordEnvVars) (file : Option interactionConfigFile) :
    interactionSettings :=
  let dflt := defaultInteractionSettings env
  let afterFile : interactionSettings := match file with
    | none => dflt
    | some extras =>
      { PublicKey := if extras.PublicKey ≠ "" then trimSpace extras.PublicKey else dflt.PublicKey
        PublicURL := if extras.PublicURL ≠ "" then trimSpace extras.PublicURL else dflt.PublicURL
        Server := if extras.Server.ListenAddr ≠ "" then extras.Server else dflt.Server
        Redis :=
          ⟨if extras.Redis.Addr ≠ "" then extras.Redis.Addr else dflt.Redis.Addr,
           if extras.Redis.DB ≠ 0 then extras.Redis.DB else dflt.Redis.DB,
           if extras.Redis.Password ≠ "" then extras.Redis.Password else dflt.Redis.Password,
           if extras.Redis.ChannelPrefix ≠ "" then extras.Redis.ChannelPrefix
           else dflt.Redis.ChannelPrefix⟩
        Tunnel :=
          ⟨if extras.Tunnel.Provider ≠ "" then extras.Tunnel.Provider else dflt.Tunnel.Provider,
           if extras.Tunnel.NgrokAuthToken ≠ "" then extras.Tunnel.NgrokAuthToken
           else dflt.Tunnel.NgrokAuthToken⟩
        Interactions := mergeHandlerMappings
          ⟨if !extras.Interactions.Enabled then false else dflt.Interactions.Enabled,
           if 0 < extras.Interactions.Timeout then extras.Interactions.Timeout
           else dflt.Interactions.Timeout,
           dflt.Interactions.Handlers⟩
          extras.Interactions.Handlers }
  let afterEnv : interactionSettings :=
    { afterFile with
      PublicKey := if trimSpace env.publicKey ≠ "" then trimSpace env.publicKey else afterFile.PublicKey
      PublicURL := if trimSpace env.publicURL ≠ "" then trimSpace env.publicURL else afterFile.PublicURL
      Tunnel :=
        ⟨if trimSpace env.tunnelProvider ≠ "" then trimSpace env.tunnelProvider
          else afterFile.Tunnel.Provider,
         if trimSpace env.ngrokAuthToken ≠ "" then trimSpace env.ngrokAuthToken
         else afterFile.Tunnel.NgrokAuthToken⟩ }
  { afterEnv with
    Server := ⟨if afterEnv.Server.ListenAddr = "" then defaultListenAddr
      else afterEnv.Server.ListenAddr⟩
    Redis := { afterEnv.Redis with
      Addr := if afterEnv.Redis.Addr = "" then defaultRedisAddr else afterEnv.Redis.Addr
      ChannelPrefix := if afterEnv.Redis.ChannelPrefix = "" then defaultRedisPrefix
        else afterEnv.Redis.ChannelPrefix }
    Interactions := { afterEnv.Interactions with
      Timeout := if afterEnv.Interactions.Timeout ≤ 0 then defaultInteractionTimeout
        else afterEnv.Interactions.Timeout } }

/-!
Concrete fixtures

Sample values used to instantiate the proved properties on concrete inputs.
-/

def okBroker : String → String → Except String Unit := fun _ _ => .ok ()

def sampleRoute : handlerRoute := ⟨"claude", "", "", []⟩

def sampleBinding : handlerBinding := ⟨handlerKindCommand, "help", sampleRoute, []⟩

def sampleInteraction : Jval := .jobj [("token", .jstr "tok"), ("type", .jnum 2)]

def sampleEnvelope : redisEnvelope :=
  ⟨"claude", "command", "help", some sampleInteraction, "2026-02-03T04:05:06Z", 900,
    "vibe.discord.server"⟩

/-- A configuration with one routable command and one autocomplete route whose
choice list is empty. -/
def cfgChoiceless : interactionsConfig :=
  ⟨true, 900, ⟨[("help", sampleRoute)], [], [], [("find", ⟨"", "", "", []⟩)]⟩⟩

/-- A configuration whose only command route has an empty agent, plus one
routable command. -/
def cfgMixedAgents : interactionsConfig :=
  ⟨true, 900, ⟨[("help", sampleRoute), ("ghost", ⟨"", "", "", []⟩)], [], [], []⟩⟩

/-- An autocomplete binding with one valid static choice. -/
def sampleAutocompleteBinding : handlerBinding :=
  ⟨handlerKindAutocomplete, "find", ⟨"", "", "", [⟨"recent", "", some (.jstr "recent")⟩]⟩,
    [⟨"recent", .jstr "recent"⟩]⟩

/-- A discovery API that always reports one plain-http tunnel. -/
def httpOnlyPolls : Nat → ngrokAPIResult :=
  fun _ => .response 200 (some ⟨[⟨"http://relay.example", "http"⟩]⟩)

/-- A discovery API that always reports an empty tunnel list. -/
def emptyPolls : Nat → ngrokAPIResult := fun _ => .response 200 (some ⟨[]⟩)

/-- An environment with every consulted variable unset. -/
def noEnv : discordEnvVars := ⟨"", "", "", "", "", "", ""⟩

/-- A parsed config file that configures a command route but leaves
`interactions.enabled` unset (YAML zero value: false). -/
def fileNoEnable : interactionConfigFile :=
  ⟨"", "", ⟨""⟩, ⟨"", 0, "", ""⟩, ⟨"", ""⟩, ⟨false, 0, ⟨[("help", sampleRoute)], [], [], []⟩⟩⟩

/-!
Codec correctness

The lemmas below establish that the parser inverts the serializer —
`parseJson (marshal v) = some v` — which is the mechanised content of the
"published bytes decode back to the same envelope" claims.
-/

theorem digChar_toNat : ∀ d, d < 10 → (digChar d).toNat = 48 + d := by decide

theorem digChar_isDig : ∀ d, d < 10 → isDig (digChar d) = true := by decide

theorem digChar_notKey : ∀ d, d < 10 →
    isWsChar (digChar d) = false ∧ digChar d ≠ 'n' ∧ digChar d ≠ 't' ∧ digChar d ≠ 'f'
    ∧ digChar d ≠ '"' ∧ digChar d ≠ '[' ∧ digChar d ≠ '{' ∧ digChar d ≠ '-'
    ∧ digChar d ≠ ']' ∧ digChar d ≠ '}' ∧ digChar d ≠ ',' := by decide

theorem natCharsAux_irrel : ∀ f g n : Nat, n < f → n < g →
    natCharsAux f n = natCharsAux g n := by
  intro f
  induction f with
  | zero =>
    intro g n hf
    omega
  | succ f ihf =>
    intro g n hf hg
    cases g with
    | zero => omega
    | succ g =>
      simp only [natCharsAux]
      by_cases h : n < 10
      · simp [h]
      · rw [if_neg h, if_neg h, ihf g (n / 10) (by omega) (by omega)]

theorem natChars_lt {n : Nat} (h : n < 10) : natChars n = [digChar n] := by
  simp [natChars, natCharsAux, h]

theorem natChars_ge {n : Nat} (h : ¬ n < 10) :
    natChars n = natChars (n / 10) ++ [digChar (n % 10)] := by
  show natCharsAux (n + 1) n = natCharsAux (n / 10 + 1) (n / 10) ++ [digChar (n % 10)]
  rw [natCharsAux, if_neg h, natCharsAux_irrel n (n / 10 + 1) (n / 10) (by omega) (by omega)]

theorem natChars_shape : ∀ n : Nat, ∃ d t, d < 10 ∧ natChars n = digChar d :: t := by
  intro n
  induction n using Nat.strong_induction_on with
  | _ n ih =>
    by_cases h : n < 10
    · exact ⟨n, [], h, natChars_lt h⟩
    · obtain ⟨d, t, hd, ht⟩ := ih (n / 10) (Nat.div_lt_self (by omega) (by omega))
      refine ⟨d, t ++ [digChar (n % 10)], hd, ?_⟩
      rw [natChars_ge h, ht]
      simp

theorem natChars_digits : ∀ n : Nat, ∀ c ∈ natChars n, isDig c = true := by
  intro n
  induction n using Nat.strong_induction_on with
  | _ n ih =>
    intro c hc
    by_cases h : n < 10
    · rw [natChars_lt h] at hc
      simp at hc
      subst hc
      exact digChar_isDig n h
    · rw [natChars_ge h] at hc
      rcases List.mem_append.mp hc with h1 | h1
      · exact ih (n / 10) (Nat.div_lt_self (by omega) (by omega)) c h1
      · simp at h1
        subst h1
        exact digChar_isDig _ (Nat.mod_lt _ (by omega))

theorem digitsVal_snoc (xs : List Char) (c : Char) :
    digitsVal (xs ++ [c]) = digitsVal xs * 10 + (c.toNat - 48) := by
  simp [digitsVal, List.foldl_append]

theorem digitsVal_natChars : ∀ n : Nat, digitsVal (natChars n) = n := by
  intro n
  induction n using Nat.strong_induction_on with
  | _ n ih =>
    by_cases h : n < 10
    · rw [natChars_lt h]
      simp [digitsVal, digChar_toNat n h]
    · rw [natChars_ge h, digitsVal_snoc, ih (n / 10) (Nat.div_lt_self (by omega) (by omega)),
        digChar_toNat _ (Nat.mod_lt _ (by omega))]
      omega

theorem grabDigits_notDig {c : Char} {cs : List Char} (h : isDig c = false) :
    grabDigits (c :: cs) = ([], c :: cs) := by
  simp [grabDigits, h]

theorem grabDigits_stop {cs : List Char} (h : numStop cs = true) :
    grabDigits cs = ([], cs) := by
  cases cs with
  | nil => rfl
  | cons c t =>
    simp only [numStop, Bool.not_eq_true'] at h
    exact grabDigits_notDig h

theorem grabDigits_run : ∀ ds rest : List Char, (∀ c ∈ ds, isDig c = true) →
    numStop rest = true → grabDigits (ds ++ rest) = (ds, rest) := by
  intro ds
  induction ds with
  | nil =>
    intro rest _ h
    simpa using grabDigits_stop h
  | cons c t ih =>
    intro rest hall h
    have hc := hall c (by simp)
    have ht := ih rest (fun x hx => hall x (by simp [hx])) h
    simp [grabDigits, hc, ht]

theorem wsSkip_cons {c : Char} {t : List Char} (h : isWsChar c = false) :
    wsSkip (c :: t) = c :: t := by
  simp [wsSkip, h]

theorem hexVal_hexChar : ∀ d, d < 16 → hexVal (hexChar d) = some d := by decide

theorem hexVal_zero : hexVal '0' = some 0 := by decide

theorem hexQuad_u2028 : hexQuad '2' '0' '2' '8' = some 8232 := by decide

theorem hexQuad_u2029 : hexQuad '2' '0' '2' '9' = some 8233 := by decide

theorem strBody_escChar (c : Char) (tail : List Char) :
    strBody (escChar c ++ tail) = (strBody tail).map (fun p => (c :: p.1, p.2)) := by
  by_cases h1 : c = '"'
  · subst h1
    cases hsb : strBody tail <;> simp [escChar, strBody, escMap, hsb]
  by_cases h2 : c = '\\'
  · subst h2
    cases hsb : strBody tail <;> simp [escChar, strBody, escMap, hsb]
  by_cases h3 : c = '\n'
  · subst h3
    cases hsb : strBody tail <;> simp [escChar, strBody, escMap, hsb]
  by_cases h4 : c = '\r'
  · subst h4
    cases hsb : strBody tail <;> simp [escChar, strBody, escMap, hsb]
  by_cases h5 : c = '\t'
  · subst h5
    cases hsb : strBody tail <;> simp [escChar, strBody, escMap, hsb]
  by_cases h6 : c = '<'
  · subst h6
    cases hsb : strBody tail <;>
      simp [escChar, strBody, hexQuad, hexVal, hsb]
  by_cases h7 : c = '>'
  · subst h7
    cases hsb : strBody tail <;>
      simp [escChar, strBody, hexQuad, hexVal, hsb]
  by_cases h8 : c = '&'
  · subst h8
    cases hsb : strBody tail <;>
      simp [escChar, strBody, hexQuad, hexVal, hsb]
  by_cases h9 : c.toNat < 32
  · have hhi : c.toNat / 16 < 16 := by omega
    have hlo : c.toNat % 16 < 16 := Nat.mod_lt _ (by omega)
    have harith : c.toNat / 16 * 16 + c.toNat % 16 = c.toNat := by omega
    cases hsb : strBody tail <;>
      simp [escChar, h1, h2, h3, h4, h5, h6, h7, h8, h9, strBody, hexQuad,
        hexVal_hexChar _ hhi, hexVal_hexChar _ hlo, hexVal_zero, hsb, harith,
        Char.ofNat_toNat]
  by_cases h10 : c.toNat = 8232
  · have hc : Char.ofNat 8232 = c := by rw [← h10]; exact Char.ofNat_toNat c
    cases hsb : strBody tail
    · simp [escChar, h1, h2, h3, h4, h5, h6, h7, h8, h9, h10, strBody, hexQuad_u2028, hsb]
    · simp [escChar, h1, h2, h3, h4, h5, h6, h7, h8, h9, h10, strBody, hexQuad_u2028, hsb]
      exact hc
  by_cases h11 : c.toNat = 8233
  · have hc : Char.ofNat 8233 = c := by rw [← h11]; exact Char.ofNat_toNat c
    cases hsb : strBody tail
    · simp [escChar, h1, h2, h3, h4, h5, h6, h7, h8, h9, h10, h11, strBody, hexQuad_u2029, hsb]
    · simp [escChar, h1, h2, h3, h4, h5, h6, h7, h8, h9, h10, h11, strBody, hexQuad_u2029, hsb]
      exact hc
  · have hesc : escChar c = [c] := by
      simp [escChar, h1, h2, h3, h4, h5, h6, h7, h8, h9, h10, h11]
    rw [hesc, List.cons_append, List.nil_append, strBody.eq_def]
    cases hsb : strBody tail <;> simp [h1, h2, hsb]

theorem strBody_escList : ∀ cs tail : List Char,
    strBody (escList cs ++ '"' :: tail) = some (cs, tail) := by
  intro cs
  induction cs with
  | nil =>
    intro tail
    simp only [escList, List.nil_append]
    rw [strBody.eq_def]
    simp
  | cons c t ih =>
    intro tail
    rw [escList, List.append_assoc, strBody_escChar, ih]
    rfl

theorem intChars_neg {n : Int} (h : n < 0) : intChars n = '-' :: natChars n.natAbs := by
  simp [intChars, h]

theorem intChars_nonneg {n : Int} (h : ¬ n < 0) : intChars n = natChars n.natAbs := by
  simp [intChars, h]

/-- Every serialized value starts with a non-whitespace character that closes
nothing: never `]` or `}` (so the parser's empty-collection peek always falls
through to the element/member loop). -/
theorem jser_shape : ∀ v : Jval, ∃ c t, jser v = c :: t
    ∧ isWsChar c = false ∧ c ≠ ']' ∧ c ≠ '}' := by
  have hd10 : ∀ d, d < 10 →
      isWsChar (digChar d) = false ∧ digChar d ≠ ']' ∧ digChar d ≠ '}' := by
    intro d hd
    obtain ⟨h1, _, _, _, _, _, _, _, h2, h3, _⟩ := digChar_notKey d hd
    exact ⟨h1, h2, h3⟩
  intro v
  cases v with
  | jnum n =>
    by_cases h : n < 0
    · refine ⟨'-', natChars n.natAbs, ?_, ?_⟩
      · simp [jser, intChars_neg h]
      · decide
    · obtain ⟨d, t, hd, ht⟩ := natChars_shape n.natAbs
      refine ⟨digChar d, t, ?_, hd10 d hd⟩
      simp [jser, intChars_nonneg h, ht]
  | jbool b => cases b <;> exact ⟨_, _, rfl, by decide⟩
  | _ => exact ⟨_, _, rfl, by decide⟩

theorem jsize_pos : ∀ v : Jval, 1 ≤ jsize v := by
  intro v
  cases v <;> simp [jsize]

mutual

theorem jsize_le_len : ∀ v : Jval, jsize v ≤ (jser v).length
  | .jnull => by simp [jsize, jser]
  | .jbool b => by cases b <;> simp [jsize, jser]
  | .jnum n => by
    obtain ⟨c, t, hct, _, _, _⟩ := jser_shape (.jnum n)
    simp [jsize, hct]
  | .jstr s => by simp [jsize, jser, strChars]
  | .jarr items => by
    have h := jsizeItems_le_len items
    simp only [jsize, jser, List.length_cons]
    omega
  | .jobj fields => by
    have h := jsizeFields_le_len fields
    simp only [jsize, jser, List.length_cons]
    omega

theorem jsizeItems_le_len : ∀ vs : List Jval, jsizeItems vs ≤ (jserItems vs).length
  | [] => by simp [jsizeItems]
  | v :: vs => by
    have h1 := jsize_le_len v
    have h2 := jsizeItemsRest_le_len vs
    simp only [jsizeItems, jserItems, List.length_append]
    omega

theorem jsizeItemsRest_le_len : ∀ vs : List Jval, jsizeItems vs + 1 ≤ (jserItemsRest vs).length
  | [] => by simp [jsizeItems, jserItemsRest]
  | v :: vs => by
    have h1 := jsize_le_len v
    have h2 := jsizeItemsRest_le_len vs
    simp only [jsizeItems, jserItemsRest, List.length_cons, List.length_append]
    omega

theorem jsizeFields_le_len : ∀ fs : List (String × Jval), jsizeFields fs ≤ (jserFields fs).length
  | [] => by simp [jsizeFields]
  | (k, v) :: fs => by
    have h1 := jsize_le_len v
    have h2 := jsizeFieldsRest_le_len fs
    simp only [jsizeFields, jserFields, List.length_append, List.length_cons]
    omega

theorem jsizeFieldsRest_le_len :
    ∀ fs : List (String × Jval), jsizeFields fs + 1 ≤ (jserFieldsRest fs).length
  | [] => by simp [jsizeFields, jserFieldsRest]
  | (k, v) :: fs => by
    have h1 := jsize_le_len v
    have h2 := jsizeFieldsRest_le_len fs
    simp only [jsizeFields, jserFieldsRest, List.length_cons, List.length_append]
    omega

end

theorem itemsRest_cons (v : Jval) (vs : List Jval) :
    jserItemsRest (v :: vs) = ',' :: jserItems (v :: vs) := by
  simp [jserItemsRest, jserItems]

theorem fieldsRest_cons (k : String) (v : Jval) (fs : List (String × Jval)) :
    jserFieldsRest ((k, v) :: fs) = ',' :: jserFields ((k, v) :: fs) := by
  simp [jserFieldsRest, jserFields]

theorem numStop_itemsRest (vs : List Jval) (rest : List Char) :
    numStop (jserItemsRest vs ++ rest) = true := by
  cases vs <;> rfl

theorem numStop_fieldsRest (fs : List (String × Jval)) (rest : List Char) :
    numStop (jserFieldsRest fs ++ rest) = true := by
  cases fs <;> rfl

/-- The codec round-trip, all three scanners at once, by induction on fuel:
given enough fuel, parsing serialized output returns exactly the serialized
value and the untouched remainder. -/
theorem codec_roundtrip : ∀ fuel : Nat,
    (∀ v rest, jsize v < fuel → numStop rest = true →
      jparse fuel (jser v ++ rest) = some (v, rest))
    ∧ (∀ v vs rest, jsizeItems (v :: vs) < fuel →
      jparseItems fuel (jserItems (v :: vs) ++ rest) = some (v :: vs, rest))
    ∧ (∀ k jv fs rest, jsizeFields ((k, jv) :: fs) < fuel →
      jparseFields fuel (jserFields ((k, jv) :: fs) ++ rest) = some ((k, jv) :: fs, rest)) := by
  intro fuel
  induction fuel with
  | zero =>
    refine ⟨?_, ?_, ?_⟩
    · intro v rest hs _
      exact absurd hs (by omega)
    · intro v vs rest hs
      exact absurd hs (by omega)
    · intro k jv fs rest hs
      exact absurd hs (by omega)
  | succ f ih =>
    obtain ⟨ihV, ihI, ihF⟩ := ih
    refine ⟨?_, ?_, ?_⟩
    · -- one value
      intro v rest hs hstop
      cases v with
      | jnull => rfl
      | jbool b => cases b <;> rfl
      | jnum n =>
        by_cases hn : n < 0
        · have harg : jser (.jnum n) ++ rest = '-' :: (natChars n.natAbs ++ rest) := by
            simp [jser, intChars_neg hn]
          have hstep : jparse (f + 1) ('-' :: (natChars n.natAbs ++ rest))
              = (match grabDigits (natChars n.natAbs ++ rest) with
                 | ([], _) => none
                 | (ds, rest') => some (.jnum (-(digitsVal ds : Int)), rest')) := rfl
          obtain ⟨d, t, hd, hshape⟩ := natChars_shape n.natAbs
          rw [harg, hstep, grabDigits_run _ _ (natChars_digits _) hstop, hshape]
          have hval : -(digitsVal (digChar d :: t) : Int) = n := by
            rw [← hshape, digitsVal_natChars]
            omega
          simp [hval]
        · obtain ⟨d, t, hd, hshape⟩ := natChars_shape n.natAbs
          obtain ⟨hws, hkn, hkt, hkf, hkq, hkbk, hkbc, hkm, _, _, _⟩ := digChar_notKey d hd
          have harg : jser (.jnum n) ++ rest = digChar d :: (t ++ rest) := by
            simp [jser, intChars_nonneg hn, hshape]
          have hstep : jparse (f + 1) (digChar d :: (t ++ rest))
              = (if digChar d = 'n' then
                   match t ++ rest with
                   | 'u' :: 'l' :: 'l' :: rest' => some (.jnull, rest')
                   | _ => none
                 else if digChar d = 't' then
                   match t ++ rest with
                   | 'r' :: 'u' :: 'e' :: rest' => some (.jbool true, rest')
                   | _ => none
                 else if digChar d = 'f' then
                   match t ++ rest with
                   | 'a' :: 'l' :: 's' :: 'e' :: rest' => some (.jbool false, rest')
                   | _ => none
                 else if digChar d = '"' then
                   match strBody (t ++ rest) with
                   | some (cs, rest') => some (.jstr ⟨cs⟩, rest')
                   | none => none
                 else if digChar d = '[' then
                   match wsSkip (t ++ rest) with
                   | [] => none
                   | c2 :: rest' =>
                     if c2 = ']' then some (.jarr [], rest')
                     else
                       match jparseItems f (c2 :: rest') with
                       | some (vs, rest'') => some (.jarr vs, rest'')
                       | none => none
                 else if digChar d = '{' then
                   match wsSkip (t ++ rest) with
                   | [] => none
                   | c2 :: rest' =>
                     if c2 = '}' then some (.jobj [], rest')
                     else
                       match jparseFields f (c2 :: rest') with
                       | some (fs, rest'') => some (.jobj fs, rest'')
                       | none => none
                 else if digChar d = '-' then
                   match grabDigits (t ++ rest) with
                   | ([], _) => none
                   | (ds, rest') => some (.jnum (-(digitsVal ds : Int)), rest')
                 else if isDig (digChar d) then
                   match grabDigits (digChar d :: (t ++ rest)) with
                   | ([], _) => none
                   | (ds, rest') => some (.jnum (digitsVal ds), rest')
                 else none) := by
            rw [jparse.eq_def]
            rw [wsSkip_cons hws]
          rw [harg, hstep, if_neg hkn, if_neg hkt, if_neg hkf, if_neg hkq, if_neg hkbk,
            if_neg hkbc, if_neg hkm, if_pos (digChar_isDig d hd)]
          have hcons : digChar d :: (t ++ rest) = natChars n.natAbs ++ rest := by
            rw [hshape]
            rfl
          rw [hcons, grabDigits_run _ _ (natChars_digits _) hstop, hshape]
          have hval : (digitsVal (digChar d :: t) : Int) = n := by
            rw [← hshape, digitsVal_natChars]
            omega
          simp [hval]
      | jstr s =>
        have harg : jser (.jstr s) ++ rest = '"' :: (escList s.data ++ ('"' :: rest)) := by
          simp [jser, strChars]
        have hstep : jparse (f + 1) ('"' :: (escList s.data ++ ('"' :: rest)))
            = (match strBody (escList s.data ++ ('"' :: rest)) with
               | some (cs, rest') => some (.jstr ⟨cs⟩, rest')
               | none => none) := rfl
        rw [harg, hstep, strBody_escList]
      | jarr items =>
        cases items with
        | nil => rfl
        | cons v vs =>
          obtain ⟨c, t, hct, hws, hbr, _⟩ := jser_shape v
          have harg : jser (.jarr (v :: vs)) ++ rest = '[' :: (jserItems (v :: vs) ++ rest) := by
            simp [jser]
          have hitems : jserItems (v :: vs) ++ rest = c :: (t ++ (jserItemsRest vs ++ rest)) := by
            simp [jserItems, hct, List.append_assoc]
          have hstep : jparse (f + 1) ('[' :: (jserItems (v :: vs) ++ rest))
              = (match wsSkip (jserItems (v :: vs) ++ rest) with
                 | [] => none
                 | c2 :: rest' =>
                   if c2 = ']' then some (.jarr [], rest')
                   else
                     match jparseItems f (c2 :: rest') with
                     | some (vs', rest'') => some (.jarr vs', rest'')
                     | none => none) := rfl
          have hsz : jsizeItems (v :: vs) < f := by
            simp only [jsize] at hs
            omega
          rw [harg, hstep, hitems, wsSkip_cons hws]
          show (if c = ']' then some (Jval.jarr [], t ++ (jserItemsRest vs ++ rest))
                else
                  match jparseItems f (c :: (t ++ (jserItemsRest vs ++ rest))) with
                  | some (vs', rest'') => some (Jval.jarr vs', rest'')
                  | none => none) = some (Jval.jarr (v :: vs), rest)
          rw [if_neg hbr, ← hitems, ihI v vs rest hsz]
      | jobj fields =>
        cases fields with
        | nil => rfl
        | cons kv fs =>
          obtain ⟨k, jv⟩ := kv
          have harg : jser (.jobj ((k, jv) :: fs)) ++ rest
              = '{' :: (jserFields ((k, jv) :: fs) ++ rest) := by
            simp [jser]
          have hflds : jserFields ((k, jv) :: fs) ++ rest
              = '"' :: ((escList k.data ++ ['"']) ++ (':' :: (jser jv ++ jserFieldsRest fs)) ++ rest) := by
            simp [jserFields, strChars, List.append_assoc]
          have hstep : jparse (f + 1) ('{' :: (jserFields ((k, jv) :: fs) ++ rest))
              = (match wsSkip (jserFields ((k, jv) :: fs) ++ rest) with
                 | [] => none
                 | c2 :: rest' =>
                   if c2 = '}' then some (.jobj [], rest')
                   else
                     match jparseFields f (c2 :: rest') with
                     | some (fs', rest'') => some (.jobj fs', rest'')
                     | none => none) := rfl
          have hsz : jsizeFields ((k, jv) :: fs) < f := by
            simp only [jsize] at hs
            omega
          rw [harg, hstep, hflds, wsSkip_cons (by decide)]
          show (match jparseFields f
                  ('"' :: ((escList k.data ++ ['"']) ++ (':' :: (jser jv ++ jserFieldsRest fs)) ++ rest)) with
                | some (fs', rest'') => some (Jval.jobj fs', rest'')
                | none => none) = some (Jval.jobj ((k, jv) :: fs), rest)
          rw [← hflds, ihF k jv fs rest hsz]
    · -- one or more array elements
      intro v vs rest hs
      have hsz1 : jsize v < f := by
        simp only [jsizeItems] at hs
        omega
      have harg : jserItems (v :: vs) ++ rest = jser v ++ (jserItemsRest vs ++ rest) := by
        simp [jserItems, List.append_assoc]
      have hstep : jparseItems (f + 1) (jserItems (v :: vs) ++ rest)
          = (match jparse f (jserItems (v :: vs) ++ rest) with
             | none => none
             | some (v', rest1) =>
               match wsSkip rest1 with
               | [] => none
               | c :: rest' =>
                 if c = ',' then
                   match jparseItems f rest' with
                   | some (vs', rest'') => some (v' :: vs', rest'')
                   | none => none
                 else if c = ']' then some ([v'], rest')
                 else none) := rfl
      rw [hstep, harg, ihV v _ hsz1 (numStop_itemsRest vs rest)]
      cases vs with
      | nil => rfl
      | cons v2 vs2 =>
        have hsz2 : jsizeItems (v2 :: vs2) < f := by
          have h1 := jsize_pos v
          simp only [jsizeItems] at hs ⊢
          omega
        show (match jparseItems f (jserItems (v2 :: vs2) ++ rest) with
              | some (vs', rest'') => some (v :: vs', rest'')
              | none => none) = some (v :: v2 :: vs2, rest)
        rw [ihI v2 vs2 rest hsz2]
    · -- one or more object members
      intro k jv fs rest hs
      have hsz1 : jsize jv < f := by
        simp only [jsizeFields] at hs
        omega
      have harg : jserFields ((k, jv) :: fs) ++ rest
          = '"' :: (escList k.data ++ ('"' :: (':' :: (jser jv ++ (jserFieldsRest fs ++ rest))))) := by
        simp [jserFields, strChars, List.append_assoc]
      have hstep : jparseFields (f + 1) (jserFields ((k, jv) :: fs) ++ rest)
          = (match wsSkip (jserFields ((k, jv) :: fs) ++ rest) with
             | [] => none
             | c :: rest0 =>
               if c = '"' then
                 match strBody rest0 with
                 | none => none
                 | some (key, rest1) =>
                   match wsSkip rest1 with
                   | [] => none
                   | c2 :: rest2 =>
                     if c2 = ':' then
                       match jparse f rest2 with
                       | none => none
                       | some (v, rest3) =>
                         match wsSkip rest3 with
                         | [] => none
                         | c3 :: rest4 =>
                           if c3 = ',' then
                             match jparseFields f rest4 with
                             | some (fs', rest5) => some ((⟨key⟩, v) :: fs', rest5)
                             | none => none
                           else if c3 = '}' then some ([(⟨key⟩, v)], rest4)
                           else none
                     else none
               else none) := rfl
      rw [hstep, harg, wsSkip_cons (by decide)]
      show (match strBody (escList k.data ++ '"' :: (':' :: (jser jv ++ (jserFieldsRest fs ++ rest)))) with
            | none => none
            | some (key, rest1) =>
              match wsSkip rest1 with
              | [] => none
              | c2 :: rest2 =>
                if c2 = ':' then
                  match jparse f rest2 with
                  | none => none
                  | some (v, rest3) =>
                    match wsSkip rest3 with
                    | [] => none
                    | c3 :: rest4 =>
                      if c3 = ',' then
                        match jparseFields f rest4 with
                        | some (fs', rest5) => some ((⟨key⟩, v) :: fs', rest5)
                        | none => none
                      else if c3 = '}' then some ([(⟨key⟩, v)], rest4)
                      else none
                else none) = some ((k, jv) :: fs, rest)
      rw [strBody_escList]
      show (match jparse f (jser jv ++ (jserFieldsRest fs ++ rest)) with
            | none => none
            | some (v, rest3) =>
              match wsSkip rest3 with
              | [] => none
              | c3 :: rest4 =>
                if c3 = ',' then
                  match jparseFields f rest4 with
                  | some (fs', rest5) => some ((⟨k.data⟩, v) :: fs', rest5)
                  | none => none
                else if c3 = '}' then some ([(⟨k.data⟩, v)], rest4)
                else none) = some ((k, jv) :: fs, rest)
      rw [ihV jv _ hsz1 (numStop_fieldsRest fs rest)]
      cases fs with
      | nil => rfl
      | cons kv2 fs2 =>
        obtain ⟨k2, jv2⟩ := kv2
        have hsz2 : jsizeFields ((k2, jv2) :: fs2) < f := by
          have h1 := jsize_pos jv
          simp only [jsizeFields] at hs ⊢
          omega
        show (match jparseFields f (jserFields ((k2, jv2) :: fs2) ++ rest) with
              | some (fs', rest5) => some ((⟨k.data⟩, jv) :: fs', rest5)
              | none => none) = some ((k, jv) :: (k2, jv2) :: fs2, rest)
        rw [ihF k2 jv2 fs2 rest hsz2]

/-- Parsing `json.Marshal` output returns the marshalled value. -/
theorem parseJson_marshal (v : Jval) : parseJson (marshal v) = some v := by
  have hfuel : jsize v < (jser v).length + 1 := by
    have := jsize_le_len v
    omega
  have h := (codec_roundtrip ((jser v).length + 1)).1 v [] hfuel rfl
  rw [List.append_nil] at h
  have hd : (marshal v).data = jser v := rfl
  simp only [parseJson, hd]
  rw [h]
  rfl

/-- Decoding `json.Marshal` of an envelope's JSON recovers every field the
struct-decode reads back, for any envelope with a present raw interaction. -/
theorem envelopeOfJson_toJson (e : redisEnvelope) (j : Jval) (hij : e.Interaction = some j) :
    envelopeOfJson (envelopeToJson e) = some e := by
  obtain ⟨a, k, ky, i, r, ts, src⟩ := e
  simp only [Option.some.injEq] at hij
  subst hij
  simp [envelopeToJson, envelopeOfJson, stringField, intField, rawField, jsonField]

/-- End-to-end: the broker payload `Publish` writes decodes back to the same
envelope on the subscriber side. -/
theorem decodeEnvelope_marshalEnvelope (e : redisEnvelope) (j : Jval)
    (hij : e.Interaction = some j) :
    decodeEnvelope (marshalEnvelope e) = some e := by
  simp only [decodeEnvelope, marshalEnvelope, parseJson_marshal, Option.bind_some]
  exact envelopeOfJson_toJson e j hij

/-!
The claims
-/

/-- C1: round-trip of the envelope wire format.  For every interaction `X`
that serializes successfully, the envelope `newRedisEnvelope` builds from `X`,
serialized as `Publish` does (the single broker write carries exactly those
bytes), then JSON-decoded into a `redisEnvelope` the way the subscriber's
`handlePayload` does, yields the envelope back, and its interaction payload is
byte-identical to `X`'s JSON serialization. -/
theorem c1_envelope_roundtrip (b : handlerBinding) (t : Int) (X : Jval)
    (receivedAt pfx : String) (env : redisEnvelope)
    (henv : newRedisEnvelope b t (some X) receivedAt = .ok env)
    (hagent : trimSpace env.Agent ≠ "") :
    (redisPublisherPublish pfx okBroker (some env)).sent
      = [(publishChannel pfx env.Agent, marshalEnvelope env)]
    ∧ decodeEnvelope (marshalEnvelope env) = some env
    ∧ env.Interaction.map marshal = some (marshal X) := by
  simp only [newRedisEnvelope, Except.ok.injEq] at henv
  subst henv
  refine ⟨?_, ?_, rfl⟩
  · simp [redisPublisherPublish, okBroker, hagent]
  · exact decodeEnvelope_marshalEnvelope _ X rfl

/-- Witness for C1 at a concrete binding and interaction. -/
theorem c1_envelope_roundtrip_witness :
    newRedisEnvelope sampleBinding 900 (some sampleInteraction) "2026-02-03T04:05:06Z"
      = .ok sampleEnvelope
    ∧ trimSpace sampleEnvelope.Agent ≠ ""
    ∧ ((redisPublisherPublish "arc:discord" okBroker (some sampleEnvelope)).sent
        = [(publishChannel "arc:discord" sampleEnvelope.Agent, marshalEnvelope sampleEnvelope)]
      ∧ decodeEnvelope (marshalEnvelope sampleEnvelope) = some sampleEnvelope
      ∧ sampleEnvelope.Interaction.map marshal = some (marshal sampleInteraction)) :=
  ⟨rfl, by decide,
    c1_envelope_roundtrip sampleBinding 900 sampleInteraction "2026-02-03T04:05:06Z"
      "arc:discord" sampleEnvelope rfl (by decide)⟩

/-- C2 counterexample: the blank-agent failure is not wrapped with the target
channel name — `Publish` of an envelope whose agent is empty fails with the
bare message `envelope missing agent`, which does not mention the channel
(not even the prefix), so "each failure is wrapped with the target channel
name" is false as stated. -/
theorem c2_wrap_counterexample :
    (redisPublisherPublish "arc:discord" okBroker
        (some ⟨"", "command", "help", none, "", 0, ""⟩)).result
      = .error "envelope missing agent"
    ∧ ¬ List.IsInfix (publishChannel "arc:discord" "").data "envelope missing agent".data := by
  constructor
  · rfl
  · decide

/-- C2 (amended): `Publish` of an envelope fails exactly when the agent is
blank (after trimming) or the broker write fails; the broker-write failure —
and only it — is wrapped with the deterministic channel name
`pfx:agent:{lowercase agent}`, the blank-agent failure being the bare
`envelope missing agent` error; on success exactly one write is made to that
channel, which coincides with the channel a subscriber for the agent listens
on. -/
theorem c2_publish_failures (pfx : String) (broker : String → String → Except String Unit)
    (e : redisEnvelope) :
    ((redisPublisherPublish pfx broker (some e)).result = .ok ()
      ↔ (trimSpace e.Agent ≠ "" ∧ broker (publishChannel pfx e.Agent) (marshalEnvelope e) = .ok ()))
    ∧ (trimSpace e.Agent = "" →
      redisPublisherPublish pfx broker (some e) = ⟨.error "envelope missing agent", []⟩)
    ∧ (∀ err, trimSpace e.Agent ≠ "" →
      broker (publishChannel pfx e.Agent) (marshalEnvelope e) = .error err →
      redisPublisherPublish pfx broker (some e)
        = ⟨.error ("publish redis channel " ++ publishChannel pfx e.Agent ++ ": " ++ err),
           [(publishChannel pfx e.Agent, marshalEnvelope e)]⟩)
    ∧ (trimSpace e.Agent ≠ "" →
      broker (publishChannel pfx e.Agent) (marshalEnvelope e) = .ok () →
      redisPublisherPublish pfx broker (some e)
        = ⟨.ok (), [(publishChannel pfx e.Agent, marshalEnvelope e)]⟩)
    ∧ (∀ cp a, publishChannel (normalizeChannelPrefix cp) a = subscriberChannel cp a) := by
  refine ⟨?_, ?_, ?_, ?_, fun cp a => rfl⟩
  · constructor
    · intro h
      by_cases hb : trimSpace e.Agent = ""
      · simp [redisPublisherPublish, hb] at h
      · refine ⟨hb, ?_⟩
        cases hbr : broker (publishChannel pfx e.Agent) (marshalEnvelope e) with
        | ok u => rfl
        | error err => simp [redisPublisherPublish, hb, hbr] at h
    · rintro ⟨hb, hbr⟩
      simp [redisPublisherPublish, hb, hbr]
  · intro hb
    simp [redisPublisherPublish, hb]
  · intro err hb hbr
    simp [redisPublisherPublish, hb, hbr]
  · intro hb hbr
    simp [redisPublisherPublish, hb, hbr]

/-- Witness for C2's amended statement at a concrete envelope and broker. -/
theorem c2_publish_failures_witness :
    (trimSpace sampleEnvelope.Agent = "" →
      redisPublisherPublish "arc:discord" okBroker (some sampleEnvelope)
        = ⟨.error "envelope missing agent", []⟩)
    ∧ trimSpace sampleEnvelope.Agent ≠ ""
    ∧ okBroker (publishChannel "arc:discord" sampleEnvelope.Agent)
        (marshalEnvelope sampleEnvelope) = .ok ()
    ∧ redisPublisherPublish "arc:discord" okBroker (some sampleEnvelope)
        = ⟨.ok (), [(publishChannel "arc:discord" sampleEnvelope.Agent,
            marshalEnvelope sampleEnvelope)]⟩ :=
  ⟨(c2_publish_failures "arc:discord" okBroker sampleEnvelope).2.1, by decide, rfl,
    (c2_publish_failures "arc:discord" okBroker sampleEnvelope).2.2.2.1 (by decide) rfl⟩

/-- C3: payloads that fail JSON decoding, and well-formed envelopes addressed
to a different agent (case-insensitive), make `handlePayload` return nil with
no outbound chat-platform calls (no edit, no follow-up). -/
theorem c3_ignores_foreign_and_malformed (agentID appID : String) (client : responderStub)
    (payload : String) :
    (decodeEnvelope payload = none →
      handlePayload agentID appID client payload = ⟨.ok (), [], ["invalid payload"]⟩)
    ∧ (∀ env, decodeEnvelope payload = some env →
      toLowerStr env.Agent ≠ toLowerStr agentID →
      handlePayload agentID appID client payload = ⟨.ok (), [], []⟩) := by
  constructor
  · intro h
    simp [handlePayload, h]
  · intro env hdec hne
    simp [handlePayload, hdec, hne]

/-- Witness for C3: a malformed payload, and an envelope addressed to
`claude` received by a listener for `codex`. -/
theorem c3_ignores_witness :
    (decodeEnvelope "not json" = none
      ∧ handlePayload "codex" "app123" ⟨.ok (), .ok ()⟩ "not json"
          = ⟨.ok (), [], ["invalid payload"]⟩)
    ∧ (decodeEnvelope (marshalEnvelope sampleEnvelope) = some sampleEnvelope
      ∧ toLowerStr sampleEnvelope.Agent ≠ toLowerStr "codex"
      ∧ handlePayload "codex" "app123" ⟨.ok (), .ok ()⟩ (marshalEnvelope sampleEnvelope)
          = ⟨.ok (), [], []⟩) :=
  ⟨⟨rfl, (c3_ignores_foreign_and_malformed "codex" "app123" ⟨.ok (), .ok ()⟩ "not json").1 rfl⟩,
   ⟨rfl, by decide,
    (c3_ignores_foreign_and_malformed "codex" "app123" ⟨.ok (), .ok ()⟩
      (marshalEnvelope sampleEnvelope)).2 sampleEnvelope rfl (by decide)⟩⟩

/-- C4: for every envelope `handlePayload` accepts (matching agent, decodable
interaction with a non-empty token), the listener wraps both outbound calls in
the fixed 10-second deadline and issues them in order — edit the original
response first, then create the follow-up; an edit failure returns a wrapped
error with the follow-up never attempted, a follow-up failure returns a
wrapped error, and neither call is ever retried (each appears at most once in
the call log). -/
theorem c4_deadline_and_sequencing (agentID appID : String) (client : responderStub)
    (payload : String) (env : redisEnvelope) (ij : Jval) (msg : interactionMsg)
    (hdec : decodeEnvelope payload = some env)
    (hagent : toLowerStr env.Agent = toLowerStr agentID)
    (hij : env.Interaction = some ij)
    (hmsg : interactionOfJson ij = some msg)
    (htok : msg.Token ≠ "") :
    (∀ e, client.editResult = .error e →
      handlePayload agentID appID client payload
        = ⟨.error ("edit original response: " ++ e),
           [⟨.editOriginal, agentHandleTimeoutSeconds, appID, msg.Token⟩], []⟩)
    ∧ (∀ e, client.editResult = .ok () → client.followupResult = .error e →
      handlePayload agentID appID client payload
        = ⟨.error ("create followup response: " ++ e),
           [⟨.editOriginal, agentHandleTimeoutSeconds, appID, msg.Token⟩,
            ⟨.followup, agentHandleTimeoutSeconds, appID, msg.Token⟩], []⟩)
    ∧ (client.editResult = .ok () → client.followupResult = .ok () →
      handlePayload agentID appID client payload
        = ⟨.ok (),
           [⟨.editOriginal, agentHandleTimeoutSeconds, appID, msg.Token⟩,
            ⟨.followup, agentHandleTimeoutSeconds, appID, msg.Token⟩], ["processed"]⟩) := by
  have hneg : ¬ toLowerStr env.Agent ≠ toLowerStr agentID := fun h => h hagent
  refine ⟨?_, ?_, ?_⟩
  · intro e he
    simp [handlePayload, hdec, hneg, hij, hmsg, htok, he]
  · intro e he hf
    simp [handlePayload, hdec, hneg, hij, hmsg, htok, he, hf]
  · intro he hf
    simp [handlePayload, hdec, hneg, hij, hmsg, htok, he, hf]

/-- Witness for C4: the sample envelope handled by its own agent, once with a
failing edit call (no follow-up made) and once with both calls succeeding. -/
theorem c4_deadline_witness :
    (decodeEnvelope (marshalEnvelope sampleEnvelope) = some sampleEnvelope
      ∧ toLowerStr sampleEnvelope.Agent = toLowerStr "claude"
      ∧ sampleEnvelope.Interaction = some sampleInteraction
      ∧ interactionOfJson sampleInteraction = some ⟨"tok"⟩
      ∧ ("tok" : String) ≠ "")
    ∧ handlePayload "claude" "app123" ⟨.error "edit down", .ok ()⟩
        (marshalEnvelope sampleEnvelope)
      = ⟨.error ("edit original response: " ++ "edit down"),
         [⟨.editOriginal, agentHandleTimeoutSeconds, "app123", "tok"⟩], []⟩
    ∧ handlePayload "claude" "app123" ⟨.ok (), .ok ()⟩ (marshalEnvelope sampleEnvelope)
      = ⟨.ok (),
         [⟨.editOriginal, agentHandleTimeoutSeconds, "app123", "tok"⟩,
          ⟨.followup, agentHandleTimeoutSeconds, "app123", "tok"⟩], ["processed"]⟩ :=
  ⟨⟨rfl, by decide, rfl, rfl, by decide⟩,
   (c4_deadline_and_sequencing "claude" "app123" ⟨.error "edit down", .ok ()⟩
      (marshalEnvelope sampleEnvelope) sampleEnvelope sampleInteraction ⟨"tok"⟩
      rfl (by decide) rfl rfl (by decide)).1 "edit down" rfl,
   (c4_deadline_and_sequencing "claude" "app123" ⟨.ok (), .ok ()⟩
      (marshalEnvelope sampleEnvelope) sampleEnvelope sampleInteraction ⟨"tok"⟩
      rfl (by decide) rfl rfl (by decide)).2.2 rfl rfl⟩

/-- C5: registration invariant — every configured binding of kind command,
component or modal whose route has an empty agent is dropped by
`collectHandlerBindings` (no binding of those kinds in its output carries an
empty agent), and `registerInteractionHandlers` errors when the binding list
is empty. -/
theorem c5_registration_invariant :
    (∀ cfg b, b ∈ collectHandlerBindings cfg →
      (b.Kind = handlerKindCommand ∨ b.Kind = handlerKindComponent
        ∨ b.Kind = handlerKindModal) →
      b.Route.Agent ≠ "")
    ∧ (∀ tmo, registerInteractionHandlers true tmo []
        = .error "no interaction handlers configured (set interactions.handlers in discord.yaml)") := by
  constructor
  · intro cfg b hb hkind
    simp only [collectHandlerBindings] at hb
    by_cases hen : cfg.Enabled
    · simp only [hen, Bool.not_true, Bool.false_eq_true, if_false, List.mem_append,
        List.mem_filterMap] at hb
      rcases hb with ((⟨kv, hkv, heq⟩ | ⟨kv, hkv, heq⟩) | ⟨kv, hkv, heq⟩) | ⟨kv, hkv, heq⟩
      · split at heq
        · exact absurd heq (by simp)
        · obtain rfl := Option.some.injEq _ _ ▸ heq
          simpa using ‹¬ kv.2.Agent = ""›
      · split at heq
        · exact absurd heq (by simp)
        · obtain rfl := Option.some.injEq _ _ ▸ heq
          simpa using ‹¬ kv.2.Agent = ""›
      · split at heq
        · exact absurd heq (by simp)
        · obtain rfl := Option.some.injEq _ _ ▸ heq
          simpa using ‹¬ kv.2.Agent = ""›
      · split at heq
        · exact absurd heq (by simp)
        · obtain rfl := Option.some.injEq _ _ ▸ heq
          rcases hkind with h | h | h <;> simpa [handlerKindAutocomplete, handlerKindCommand,
            handlerKindComponent, handlerKindModal] using h
    · simp [hen] at hb
  · intro tmo
    rfl

/-- Witness for C5: in a configuration holding a routable command and a
command with an empty agent, only the routable binding is produced, and it has
a non-empty agent. -/
theorem c5_registration_invariant_witness :
    collectHandlerBindings cfgMixedAgents
      = [⟨handlerKindCommand, "help", sampleRoute, []⟩]
    ∧ (⟨handlerKindCommand, "help", sampleRoute, []⟩ : handlerBinding)
        ∈ collectHandlerBindings cfgMixedAgents
    ∧ ((⟨handlerKindCommand, "help", sampleRoute, []⟩ : handlerBinding).Kind = handlerKindCommand
        ∨ (⟨handlerKindCommand, "help", sampleRoute, []⟩ : handlerBinding).Kind = handlerKindComponent
        ∨ (⟨handlerKindCommand, "help", sampleRoute, []⟩ : handlerBinding).Kind = handlerKindModal)
    ∧ (⟨handlerKindCommand, "help", sampleRoute, []⟩ : handlerBinding).Route.Agent ≠ "" :=
  ⟨rfl, List.Mem.head _, Or.inl rfl,
    c5_registration_invariant.1 cfgMixedAgents _ (List.Mem.head _) (Or.inl rfl)⟩

/-- C6 counterexample: a configured autocomplete route with zero valid
choices does **not** make registration fail — with another routable binding
present, `collectHandlerBindings` silently drops the choiceless route and
`registerInteractionHandlers` succeeds. -/
theorem c6_choiceless_counterexample :
    buildAutocompleteChoices (⟨"", "", "", []⟩ : handlerRoute).Choices = []
    ∧ collectHandlerBindings cfgChoiceless = [⟨handlerKindCommand, "help", sampleRoute, []⟩]
    ∧ registerInteractionHandlers true 900 (collectHandlerBindings cfgChoiceless)
        = .ok [(handlerKindCommand, "help")] :=
  ⟨rfl, rfl, rfl⟩

/-- C6 (amended): an autocomplete route whose choice list yields zero valid
choices is silently dropped at registration time — so no registered
autocomplete binding has an empty choice list and the request-time
missing-choices error is unreachable; registration fails only when zero
bindings remain over all; registered autocomplete requests are answered
synchronously from the static choice list, constructing no envelope and
publishing nothing. -/
theorem c6_autocomplete_registration :
    (∀ cfg b, b ∈ collectHandlerBindings cfg → b.Kind = handlerKindAutocomplete →
      b.AutocompleteChoices ≠ [])
    ∧ (∀ b tmo pfx broker i r, b.Kind = handlerKindAutocomplete →
      b.AutocompleteChoices ≠ [] →
      dispatchHandler b tmo pfx broker i r = (.ok (.autocompleteResult b.AutocompleteChoices), []))
    ∧ (∀ tmo, registerInteractionHandlers true tmo []
        = .error "no interaction handlers configured (set interactions.handlers in discord.yaml)") := by
  refine ⟨?_, ?_, fun tmo => rfl⟩
  · intro cfg b hb hkind
    simp only [collectHandlerBindings] at hb
    by_cases hen : cfg.Enabled
    · simp only [hen, Bool.not_true, Bool.false_eq_true, if_false, List.mem_append,
        List.mem_filterMap] at hb
      rcases hb with ((⟨kv, hkv, heq⟩ | ⟨kv, hkv, heq⟩) | ⟨kv, hkv, heq⟩) | ⟨kv, hkv, heq⟩
      · split at heq
        · exact absurd heq (by simp)
        · obtain rfl := Option.some.injEq _ _ ▸ heq
          simp [handlerKindAutocomplete, handlerKindCommand] at hkind
      · split at heq
        · exact absurd heq (by simp)
        · obtain rfl := Option.some.injEq _ _ ▸ heq
          simp [handlerKindAutocomplete, handlerKindComponent] at hkind
      · split at heq
        · exact absurd heq (by simp)
        · obtain rfl := Option.some.injEq _ _ ▸ heq
          simp [handlerKindAutocomplete, handlerKindModal] at hkind
      · split at heq
        · exact absurd heq (by simp)
        · obtain rfl := Option.some.injEq _ _ ▸ heq
          simp only [ne_eq, ← List.isEmpty_iff]
          simpa using ‹¬ (buildAutocompleteChoices kv.2.Choices).isEmpty = true›
    · simp [hen] at hb
  · intro b tmo pfx broker i r hkind hch
    have hie : b.AutocompleteChoices.isEmpty = false := by
      simpa [List.isEmpty_iff] using hch
    simp [dispatchHandler, hkind, hie]

/-- Witness for C6's amended statement: a registered autocomplete binding with
one valid choice answers synchronously with that choice and publishes
nothing. -/
theorem c6_autocomplete_registration_witness :
    sampleAutocompleteBinding.Kind = handlerKindAutocomplete
    ∧ sampleAutocompleteBinding.AutocompleteChoices ≠ []
    ∧ dispatchHandler sampleAutocompleteBinding 900 "arc:discord" okBroker
        (some sampleInteraction) "2026-02-03T04:05:06Z"
      = (.ok (.autocompleteResult sampleAutocompleteBinding.AutocompleteChoices), []) :=
  ⟨rfl, by simp [sampleAutocompleteBinding],
    (c6_autocomplete_registration.2.1 sampleAutocompleteBinding 900 "arc:discord" okBroker
      (some sampleInteraction) "2026-02-03T04:05:06Z" rfl
      (by simp [sampleAutocompleteBinding]))⟩

/-- C7 counterexample: `Stop` against an already-dead PID does **not** report
success and does **not** remove the PID file — with the real kill function,
SIGTERM to a gone process fails, `Stop` returns that error, and the PID file
is left in place. -/
theorem c7_stop_dead_pid_counterexample :
    daemonStop (realKillProcess (fun _ => false)) ⟨some "4321"⟩
      = (.error "os: process already finished", ⟨some "4321"⟩) := rfl

/-- C7 (amended): `Stop` reads the PID file and errors if it is absent;
otherwise it sends the graceful termination signal to the recorded PID and
removes the PID file exactly when the signal delivery succeeds; when the
signal fails — as the real kill function does against a PID whose process has
already exited — `Stop` returns that error and leaves the PID file in
place. -/
theorem c7_stop_behaviour (kill : Int → Except String Unit) (st : daemonState)
    (alive : Int → Bool) :
    (st.pidFile = none → daemonStop kill st = (.error "no pid file found", st))
    ∧ (∀ pid, readPID st.pidFile = .ok pid → pid ≠ 0 → kill pid = .ok () →
      daemonStop kill st = (.ok (), ⟨none⟩))
    ∧ (∀ pid e, readPID st.pidFile = .ok pid → pid ≠ 0 → kill pid = .error e →
      daemonStop kill st = (.error e, st))
    ∧ (∀ pid, alive pid = false →
      realKillProcess alive pid = .error "os: process already finished") := by
  refine ⟨?_, ?_, ?_, ?_⟩
  · intro h
    simp [daemonStop, h, readPID]
  · intro pid hread hnz hk
    simp [daemonStop, hread, hnz, hk]
  · intro pid e hread hnz hk
    simp [daemonStop, hread, hnz, hk]
  · intro pid h
    simp [realKillProcess, h]

/-- Witness for C7's amended statement: an absent PID file errors; a recorded
live PID is signalled and the file removed; a dead PID leaves the error and
the file. -/
theorem c7_stop_behaviour_witness :
    ((⟨none⟩ : daemonState).pidFile = none
      ∧ daemonStop (realKillProcess (fun _ => true)) ⟨none⟩
          = (.error "no pid file found", ⟨none⟩))
    ∧ (readPID (daemonState.pidFile ⟨some "4321"⟩) = .ok 4321
      ∧ (4321 : Int) ≠ 0
      ∧ realKillProcess (fun _ => true) 4321 = .ok ()
      ∧ daemonStop (realKillProcess (fun _ => true)) ⟨some "4321"⟩ = (.ok (), ⟨none⟩)) :=
  ⟨⟨rfl, (c7_stop_behaviour (realKillProcess (fun _ => true)) ⟨none⟩ (fun _ => true)).1 rfl⟩,
   ⟨rfl, by decide, rfl,
    (c7_stop_behaviour (realKillProcess (fun _ => true)) ⟨some "4321"⟩ (fun _ => true)).2.1
      4321 rfl (by decide) rfl⟩⟩

/-- C8: `Start` on a PID file naming a still-alive process (liveness via the
injected signal-0 probe, not file presence) returns the "already running"
error, spawns nothing, and leaves the PID file unchanged; otherwise — dead
recorded process or no readable PID — it spawns exactly one child whose
environment ends with the daemon marker variable and overwrites the PID file
with the new child's PID. -/
theorem c8_start_behaviour (check : Int → Bool) (spawn : Except String Int)
    (envc : Option String) (st : daemonState) (pid : Int)
    (hread : readPID st.pidFile = .ok pid) :
    (0 < pid → check pid = true →
      daemonStart check spawn envc st
        = ⟨.error ("daemon already running (pid " ++ toString pid ++ ")"), st, []⟩)
    ∧ (∀ newPid, ¬(0 < pid ∧ check pid = true) → spawn = .ok newPid →
      daemonStart check spawn envc st
        = ⟨.ok (), ⟨some (toString newPid)⟩,
           [envFromFile envc ++ [daemonEnvFlagAssignment]]⟩) := by
  constructor
  · intro hpos hlive
    simp [daemonStart, hread, hpos, hlive]
  · intro newPid hnot hspawn
    simp [daemonStart, hread, hnot, hspawn]

/-- Witness for C8: a live recorded PID refuses and changes nothing; a dead
recorded PID spawns the child (marker appended) and overwrites the file. -/
theorem c8_start_behaviour_witness :
    readPID (daemonState.pidFile ⟨some "42"⟩) = .ok 42
    ∧ ((0 : Int) < 42
      ∧ (fun p => p == (42 : Int)) 42 = true
      ∧ daemonStart (fun p => p == (42 : Int)) (.ok 99) none ⟨some "42"⟩
          = ⟨.error ("daemon already running (pid " ++ toString (42 : Int) ++ ")"),
             ⟨some "42"⟩, []⟩)
    ∧ (¬((0 : Int) < 42 ∧ (fun _ => false) (42 : Int) = true)
      ∧ daemonStart (fun _ => false) (.ok 99) (some "FOO=bar\n# note\n") ⟨some "42"⟩
          = ⟨.ok (), ⟨some (toString (99 : Int))⟩,
             [envFromFile (some "FOO=bar\n# note\n") ++ [daemonEnvFlagAssignment]]⟩) :=
  ⟨rfl,
   ⟨by decide, rfl,
    (c8_start_behaviour (fun p => p == (42 : Int)) (.ok 99) none ⟨some "42"⟩ 42 rfl).1
      (by decide) rfl⟩,
   ⟨by simp,
    (c8_start_behaviour (fun _ => false) (.ok 99) (some "FOO=bar\n# note\n") ⟨some "42"⟩
      42 rfl).2 99 (by simp) rfl⟩⟩

/-- If no poll in the window yields a usable URL, the wait loop times out. -/
theorem ngrokWaitLoop_timeout (polls : Nat → ngrokAPIResult) : ∀ n i : Nat,
    (∀ j, i ≤ j → j < i + n → ∀ u, fetchNgrokURL (polls j) = .ok u → u = "") →
    ngrokWaitLoop polls n i = .error "timed out waiting for ngrok public url" := by
  intro n
  induction n with
  | zero => intro i _; rfl
  | succ n ihn =>
    intro i h
    have hrest : ∀ j, i + 1 ≤ j → j < (i + 1) + n → ∀ u,
        fetchNgrokURL (polls j) = .ok u → u = "" := by
      intro j h1 h2 u hu
      exact h j (by omega) (by omega) u hu
    simp only [ngrokWaitLoop]
    cases hf : fetchNgrokURL (polls i) with
    | error e => exact ihn (i + 1) hrest
    | ok u =>
      have hu : u = "" := h i (by omega) (by omega) u hf
      subst hu
      simpa using ihn (i + 1) hrest

/-- C9 counterexample: the wait loop does not poll "until a public URL
matching the expected scheme is found or the timeout elapses" — a discovery
response holding only a plain-http tunnel ends the wait immediately, well
before the timeout, and the produced session's URL does not match the
`https://` scheme (and the process is never killed). -/
theorem c9_scheme_counterexample :
    startNgrokTunnel "127.0.0.1:8080" (.ok ()) (.ok ()) httpOnlyPolls
      = ⟨.ok ⟨"ngrok", "http://relay.example"⟩, 0⟩
    ∧ hasPrefixStr "http://relay.example" "https://" = false :=
  ⟨rfl, rfl⟩

/-- C9 (amended): `startNgrokTunnel` polls the local discovery API on the
fixed 500ms interval inside the 15s window, accepting the first reported
tunnel URL (an `https://` URL preferred, else the first tunnel of any
scheme); when every poll of the window fails to produce a URL, the spawned
subprocess's kill is invoked exactly once and the call returns the wrapped
timeout error with no session. -/
theorem c9_timeout_kills_once (listenAddr : String) (polls : Nat → ngrokAPIResult)
    (hla : listenAddr ≠ "")
    (hfail : ∀ j, j < ngrokPollBudget → ∀ u, fetchNgrokURL (polls j) = .ok u → u = "") :
    startNgrokTunnel listenAddr (.ok ()) (.ok ()) polls
      = ⟨.error ("ngrok tunnel not ready: " ++ "timed out waiting for ngrok public url"), 1⟩ := by
  have hw : waitForNgrokURL polls = .error "timed out waiting for ngrok public url" := by
    apply ngrokWaitLoop_timeout polls ngrokPollBudget 0
    intro j _ h2 u hu
    exact hfail j (by omega) u hu
  simp [startNgrokTunnel, hla, hw]

/-- Witness for C9's amended statement: a discovery API that always answers
with an empty tunnel list never yields a URL, so the start call kills the
subprocess once and fails. -/
theorem c9_timeout_kills_once_witness :
    ("127.0.0.1:8080" : String) ≠ ""
    ∧ (∀ j, j < ngrokPollBudget → ∀ u, fetchNgrokURL (emptyPolls j) = .ok u → u = "")
    ∧ startNgrokTunnel "127.0.0.1:8080" (.ok ()) (.ok ()) emptyPolls
      = ⟨.error ("ngrok tunnel not ready: " ++ "timed out waiting for ngrok public url"), 1⟩ :=
  ⟨by decide,
   fun j _ u hu => by simp [emptyPolls, fetchNgrokURL] at hu,
   c9_timeout_kills_once "127.0.0.1:8080" emptyPolls (by decide)
     (fun j _ u hu => by simp [emptyPolls, fetchNgrokURL] at hu)⟩

/-- C10: a disabled interactions configuration yields zero bindings even when
routes are configured, so registration fails with the no-handlers error; and
`loadInteractionSettings` leaves interactions disabled for any config file
that does not set `interactions.enabled` to true (the YAML zero value is
false), despite the default being enabled — handler routes in such a file are
silently ineffective. -/
theorem c10_disabled_config (cfg : interactionsConfig) (env : discordEnvVars)
    (extras : interactionConfigFile) :
    (cfg.Enabled = false → collectHandlerBindings cfg = [])
    ∧ (cfg.Enabled = false →
      registerInteractionHandlers true cfg.Timeout (collectHandlerBindings cfg)
        = .error "no interaction handlers configured (set interactions.handlers in discord.yaml)")
    ∧ (extras.Interactions.Enabled = false →
      (loadInteractionSettings env (some extras)).Interactions.Enabled = false)
    ∧ (defaultInteractionSettings env).Interactions.Enabled = true := by
  have h1 : cfg.Enabled = false → collectHandlerBindings cfg = [] := by
    intro h
    simp [collectHandlerBindings, h]
  refine ⟨h1, ?_, ?_, rfl⟩
  · intro h
    rw [h1 h]
    rfl
  · intro h
    simp [loadInteractionSettings, mergeHandlerMappings, h]

/-- Witness for C10: a config file that defines a command route but leaves
`interactions.enabled` unset loads with interactions disabled, and a disabled
configuration with configured routes produces zero bindings and the
registration error. -/
theorem c10_disabled_config_witness :
    (loadInteractionSettings noEnv (some fileNoEnable)).Interactions.Enabled = false
    ∧ ((loadInteractionSettings noEnv (some fileNoEnable)).Interactions.Handlers.Commands
        = [("help", sampleRoute)])
    ∧ collectHandlerBindings (loadInteractionSettings noEnv (some fileNoEnable)).Interactions = []
    ∧ registerInteractionHandlers true 900
        (collectHandlerBindings (loadInteractionSettings noEnv (some fileNoEnable)).Interactions)
      = .error "no interaction handlers configured (set interactions.handlers in discord.yaml)" :=
  ⟨(c10_disabled_config (loadInteractionSettings noEnv (some fileNoEnable)).Interactions
      noEnv fileNoEnable).2.2.1 rfl,
   rfl,
   (c10_disabled_config (loadInteractionSettings noEnv (some fileNoEnable)).Interactions
      noEnv fileNoEnable).1
     ((c10_disabled_config (loadInteractionSettings noEnv (some fileNoEnable)).Interactions
        noEnv fileNoEnable).2.2.1 rfl),
   by
     have := (c10_disabled_config (loadInteractionSettings noEnv (some fileNoEnable)).Interactions
        noEnv fileNoEnable).1
       ((c10_disabled_config (loadInteractionSettings noEnv (some fileNoEnable)).Interactions
          noEnv fileNoEnable).2.2.1 rfl)
     rw [this]
     rfl⟩

end ArcDiscord
